import Mathlib

/-!
Verification of the vibe-quant reduce-only closing executor.

Shallow embedding of the core of the repository: decimal rounding helpers
(`src/utils/helpers.py`), maker/aggressive pricing and the per-side execution
state machine (`src/execution/engine.py`), the protective-stop reconciler
(`src/risk/protective_stop.py`), the rate-limit gates and client-order-id
namespace of the orchestrator (`src/main.py`, `src/risk/manager.py`), and the
order-parameter building of the exchange adapter (`src/exchange/adapter.py`).

Python `Decimal` values are modelled as exact rationals (`ℚ`).  `Decimal`'s
`//` operator truncates the quotient toward zero and `%` returns a remainder
with the sign of the dividend; both are modelled explicitly below.
-/

namespace VQ

/-- Truncation of a rational toward zero, as performed by Python `Decimal`
integer division (`value // tick`): floor for non-negative quotients and
ceiling for negative ones. -/
def ratTrunc (q : ℚ) : ℤ :=
  if 0 ≤ q then ⌊q⌋ else ⌈q⌉

/-- `round_to_tick` from `src/utils/helpers.py`:
`(value // tick_size) * tick_size` when `tick_size > 0`, identity otherwise. -/
def roundToTick (value tickSize : ℚ) : ℚ :=
  if tickSize ≤ 0 then value else (ratTrunc (value / tickSize)) * tickSize

/-- The `Decimal` remainder `value % tick` (sign of the dividend):
`value - (value // tick) * tick`. -/
def decRem (value tick : ℚ) : ℚ :=
  value - (ratTrunc (value / tick)) * tick

/-- `round_up_to_tick` from `src/utils/helpers.py`: if `value % tick > 0`
return `value + (tick - remainder)`, else `value`; identity for
`tick_size ≤ 0`. -/
def roundUpToTick (value tickSize : ℚ) : ℚ :=
  if tickSize ≤ 0 then value
  else
    let remainder := decRem value tickSize
    if remainder > 0 then value + (tickSize - remainder) else value

/-- `round_to_step` from `src/utils/helpers.py` (same body as
`round_to_tick`, applied to quantities). -/
def roundToStep (value stepSize : ℚ) : ℚ :=
  if stepSize ≤ 0 then value else (ratTrunc (value / stepSize)) * stepSize

/-- `round_up_to_step` from `src/utils/helpers.py` (same body as
`round_up_to_tick`). -/
def roundUpToStep (value stepSize : ℚ) : ℚ :=
  if stepSize ≤ 0 then value
  else
    let remainder := decRem value stepSize
    if remainder > 0 then value + (stepSize - remainder) else value

section RoundingLemmas

lemma ratTrunc_of_nonneg {q : ℚ} (h : 0 ≤ q) : ratTrunc q = ⌊q⌋ := by
  simp [ratTrunc, h]

lemma ratTrunc_intCast (k : ℤ) : ratTrunc (k : ℚ) = k := by
  rcases le_or_lt 0 (k : ℚ) with h | h
  · simp [ratTrunc, h]
  · simp [ratTrunc, not_le.mpr h, Int.ceil_intCast]

/-- For a tick-aligned value, `roundToTick` is the identity. -/
lemma roundToTick_mul_int (k : ℤ) {t : ℚ} (ht : 0 < t) :
    roundToTick ((k : ℚ) * t) t = (k : ℚ) * t := by
  have hne : t ≠ 0 := ne_of_gt ht
  have hq : ((k : ℚ) * t) / t = (k : ℚ) := by
    field_simp
  simp [roundToTick, not_le.mpr ht, hq, ratTrunc_intCast]

/-- `roundToTick` for a non-negative value and positive tick is the floor
multiple: it is `⌊v / t⌋ * t`. -/
lemma roundToTick_eq_floor {v t : ℚ} (hv : 0 ≤ v) (ht : 0 < t) :
    roundToTick v t = (⌊v / t⌋ : ℚ) * t := by
  have hq : 0 ≤ v / t := div_nonneg hv ht.le
  simp [roundToTick, not_le.mpr ht, ratTrunc_of_nonneg hq]

lemma roundToTick_le {v t : ℚ} (hv : 0 ≤ v) (ht : 0 < t) :
    roundToTick v t ≤ v := by
  rw [roundToTick_eq_floor hv ht]
  have h1 : (⌊v / t⌋ : ℚ) ≤ v / t := Int.floor_le _
  calc (⌊v / t⌋ : ℚ) * t ≤ (v / t) * t := by
        exact mul_le_mul_of_nonneg_right h1 ht.le
    _ = v := by field_simp

lemma lt_roundToTick_add {v t : ℚ} (hv : 0 ≤ v) (ht : 0 < t) :
    v < roundToTick v t + t := by
  rw [roundToTick_eq_floor hv ht]
  have h1 : v / t < (⌊v / t⌋ : ℚ) + 1 := Int.lt_floor_add_one _
  have h2 : (v / t) * t < ((⌊v / t⌋ : ℚ) + 1) * t :=
    mul_lt_mul_of_pos_right h1 ht
  have h3 : (v / t) * t = v := by field_simp
  linarith [h2, h3]

/-- `roundToTick` is monotone in the value (for every tick sign, because the
trunc-toward-zero map is monotone and the `tick ≤ 0` branch is the identity). -/
lemma roundToTick_mono {t : ℚ} : Monotone fun v => roundToTick v t := by
  intro a b hab
  by_cases ht : t ≤ 0
  · simpa [roundToTick, ht] using hab
  · have htpos : 0 < t := lt_of_not_ge ht
    simp only [roundToTick, if_neg ht]
    have hdiv : a / t ≤ b / t := by gcongr
    have htr : ratTrunc (a / t) ≤ ratTrunc (b / t) := by
      unfold ratTrunc
      by_cases ha : 0 ≤ a / t
      · have hb : 0 ≤ b / t := le_trans ha hdiv
        simp only [if_pos ha, if_pos hb]
        exact Int.floor_le_floor hdiv
      · by_cases hb : 0 ≤ b / t
        · simp only [if_neg ha, if_pos hb]
          have h1 : (⌈a / t⌉ : ℤ) ≤ 0 := by
            refine Int.ceil_le.mpr ?_
            push_cast
            linarith [lt_of_not_ge ha]
          have h2 : (0 : ℤ) ≤ ⌊b / t⌋ := Int.floor_nonneg.mpr hb
          omega
        · simp only [if_neg ha, if_neg hb]
          exact Int.ceil_le_ceil hdiv
    have : (ratTrunc (a / t) : ℚ) ≤ (ratTrunc (b / t) : ℚ) := by
      exact_mod_cast htr
    exact mul_le_mul_of_nonneg_right this htpos.le

lemma roundToStep_eq_roundToTick (v s : ℚ) : roundToStep v s = roundToTick v s := rfl

lemma roundUpToStep_eq_roundUpToTick (v s : ℚ) :
    roundUpToStep v s = roundUpToTick v s := rfl

lemma roundUpToTick_cases {v t : ℚ} (hv : 0 ≤ v) (ht : 0 < t) :
    roundUpToTick v t = (⌈v / t⌉ : ℚ) * t := by
  have hq : 0 ≤ v / t := div_nonneg hv ht.le
  have hfl : ratTrunc (v / t) = ⌊v / t⌋ := ratTrunc_of_nonneg hq
  have hvt : (v / t) * t = v := by field_simp
  simp only [roundUpToTick, if_neg (not_le.mpr ht), decRem, hfl]
  by_cases hr : v - (⌊v / t⌋ : ℚ) * t > 0
  · rw [if_pos hr]
    have hne : (⌊v / t⌋ : ℚ) ≠ v / t := by
      intro heq
      have : (⌊v / t⌋ : ℚ) * t = v := by rw [heq]; exact hvt
      linarith
    have hceil : ⌈v / t⌉ = ⌊v / t⌋ + 1 := by
      rcases eq_or_ne (⌈v / t⌉ : ℤ) ⌊v / t⌋ with h | h
      · exfalso
        have := Int.floor_le (v / t)
        have h2 := Int.le_ceil (v / t)
        rw [h] at h2
        have : (⌊v / t⌋ : ℚ) = v / t := le_antisymm (Int.floor_le _) h2
        exact hne this
      · have := Int.ceil_le_floor_add_one (v / t)
        have h2 := Int.floor_le_ceil (v / t)
        omega
    rw [hceil]
    push_cast
    ring
  · rw [if_neg hr]
    have hle : v - (⌊v / t⌋ : ℚ) * t ≤ 0 := le_of_not_gt hr
    have hge : (⌊v / t⌋ : ℚ) * t ≤ v := by
      have h1 : (⌊v / t⌋ : ℚ) ≤ v / t := Int.floor_le _
      calc (⌊v / t⌋ : ℚ) * t ≤ (v / t) * t := mul_le_mul_of_nonneg_right h1 ht.le
        _ = v := hvt
    have heqv : v = (⌊v / t⌋ : ℚ) * t := le_antisymm (by linarith) hge
    have hdiv : v / t = (⌊v / t⌋ : ℚ) := by
      rw [heqv]; field_simp
    have hceil : ⌈v / t⌉ = ⌊v / t⌋ := by
      rw [hdiv]; simp
    rw [hceil]
    exact heqv

end RoundingLemmas

/-- Claim C9 counterexample: `round_down_to` does not round down for negative
inputs, because `Decimal` `//` truncates toward zero.  At `x = -1/2`, `s = 1`
(a strictly positive step) the helper returns `0 > x`, violating
`round_down_to(x, s) ≤ x`. -/
theorem roundToTick_not_le_of_neg :
    (0 : ℚ) < 1 ∧ roundToTick (-1/2 : ℚ) 1 = 0 ∧ ¬ roundToTick (-1/2 : ℚ) 1 ≤ (-1/2 : ℚ) := by
  have hval : roundToTick (-1/2 : ℚ) 1 = 0 := by
    have hc : (⌈(-1/2 : ℚ)⌉ : ℤ) = 0 := by
      rw [Int.ceil_eq_iff]
      norm_num
    norm_num [roundToTick, ratTrunc, hc]
  refine ⟨one_pos, hval, ?_⟩
  rw [hval]
  norm_num

/-- Claim C9 (amended): for every non-negative value `x` and strictly positive
step `s`, `round_down_to` and `round_up_to` (both the tick and the step
variants, which share one body) satisfy the bracketing laws
`round_down_to(x, s) ≤ x < round_down_to(x, s) + s` and
`round_up_to(x, s) − s < x ≤ round_up_to(x, s)`, and both results are exact
integer multiples of `s`.  For negative `x` the flooring helper truncates
toward zero instead. -/
theorem rounding_helpers_bracket (x s : ℚ) (hx : 0 ≤ x) (hs : 0 < s) :
    roundToTick x s ≤ x ∧ x < roundToTick x s + s ∧
    roundUpToTick x s - s < x ∧ x ≤ roundUpToTick x s ∧
    (∃ k : ℤ, roundToTick x s = (k : ℚ) * s) ∧
    (∃ m : ℤ, roundUpToTick x s = (m : ℚ) * s) ∧
    roundToStep x s = roundToTick x s ∧
    roundUpToStep x s = roundUpToTick x s := by
  have hdown := roundToTick_le hx hs
  have hup := lt_roundToTick_add hx hs
  have hceil := roundUpToTick_cases hx hs
  have h1 : x ≤ roundUpToTick x s := by
    rw [hceil]
    have := Int.le_ceil (x / s)
    calc x = (x / s) * s := by field_simp
      _ ≤ (⌈x / s⌉ : ℚ) * s := mul_le_mul_of_nonneg_right this hs.le
  have h2 : roundUpToTick x s - s < x := by
    rw [hceil]
    have := Int.ceil_lt_add_one (x / s)
    have h3 : (⌈x / s⌉ : ℚ) * s < ((x / s) + 1) * s := mul_lt_mul_of_pos_right this hs
    have h4 : ((x / s) + 1) * s = x + s := by field_simp
    linarith
  refine ⟨hdown, hup, h2, h1, ⟨⌊x / s⌋, roundToTick_eq_floor hx hs⟩,
    ⟨⌈x / s⌉, hceil⟩, rfl, rfl⟩

/-- Witness for `rounding_helpers_bracket` at `x = 7/3`, `s = 1/10`. -/
theorem rounding_helpers_bracket_witness :
    (0 : ℚ) ≤ 7/3 ∧ (0 : ℚ) < 1/10 ∧
    (roundToTick (7/3 : ℚ) (1/10) ≤ 7/3 ∧ (7/3 : ℚ) < roundToTick (7/3) (1/10) + 1/10 ∧
      roundUpToTick (7/3 : ℚ) (1/10) - 1/10 < 7/3 ∧ (7/3 : ℚ) ≤ roundUpToTick (7/3) (1/10) ∧
      (∃ k : ℤ, roundToTick (7/3 : ℚ) (1/10) = (k : ℚ) * (1/10)) ∧
      (∃ m : ℤ, roundUpToTick (7/3 : ℚ) (1/10) = (m : ℚ) * (1/10)) ∧
      roundToStep (7/3 : ℚ) (1/10) = roundToTick (7/3) (1/10) ∧
      roundUpToStep (7/3 : ℚ) (1/10) = roundUpToTick (7/3) (1/10)) := by
  have hx : (0 : ℚ) ≤ 7/3 := by norm_num
  have hs : (0 : ℚ) < 1/10 := by norm_num
  exact ⟨hx, hs, rounding_helpers_bracket (7/3) (1/10) hx hs⟩

section ConcreteEval

lemma ratTrunc_eq_of (k : ℤ) {q : ℚ} (h0 : 0 ≤ q) (h1 : (k : ℚ) ≤ q)
    (h2 : q < (k : ℚ) + 1) : ratTrunc q = k := by
  rw [ratTrunc_of_nonneg h0]
  exact Int.floor_eq_iff.mpr ⟨h1, by exact_mod_cast h2⟩

lemma roundToTick_eval {v t : ℚ} (k : ℤ) (ht : 0 < t) (h0 : 0 ≤ v / t)
    (h1 : (k : ℚ) ≤ v / t) (h2 : v / t < (k : ℚ) + 1) :
    roundToTick v t = (k : ℚ) * t := by
  simp [roundToTick, not_le.mpr ht, ratTrunc_eq_of k h0 h1 h2]

end ConcreteEval

/-! ## Execution engine: pricing and quantities (`src/execution/engine.py`) -/

/-- Position side in hedge mode (`src/models.py`, `PositionSide`). -/
inductive PSide
  | LONG
  | SHORT
deriving DecidableEq, Repr

/-- Order side (`src/models.py`, `OrderSide`). -/
inductive OSide
  | BUY
  | SELL
deriving DecidableEq, Repr

/-- Time-in-force (`src/models.py`, `TimeInForce`). -/
inductive TIF
  | GTC
  | GTX
  | IOC
  | FOK
deriving DecidableEq, Repr

/-- The `ExecutionEngine` constructor parameters used by the pricing and
state-machine methods (`src/execution/engine.py`, `ExecutionEngine.__init__`).
The constructor raises unless `maker_safety_ticks ≥ 1`. -/
structure EngineCfg where
  orderTtlMs : ℤ := 800
  repostCooldownMs : ℤ := 100
  makerPriceMode : String := "inside_spread_1tick"
  makerNTicks : ℤ := 1
  makerSafetyTicks : ℤ := 1
  makerTimeoutsToEscalate : ℤ := 2
  aggrFillsToDeescalate : ℤ := 1
  aggrTimeoutsToDeescalate : ℤ := 2
  wsFillGraceMs : ℤ := 5000
  fillRateFeedbackEnabled : Bool := false
  fillRateWindowMs : ℤ := 300000
  fillRateLowThreshold : ℚ := 1/4
  fillRateHighThreshold : ℚ := 3/4
  fillRateLowMakerTimeoutsToEscalate : ℤ := 1
  fillRateHighMakerTimeoutsToEscalate : Option ℤ := none
deriving Repr

/-- `ExecutionEngine.build_maker_price`: resolve the maker price mode, flatten
to tick, then clamp to the post-only safety band computed from the
tick-floored opposing best price (with the `≤ 0` fallback to one tick on the
BUY side). -/
def buildMakerPrice (cfg : EngineCfg) (side : PSide) (bestBid bestAsk tickSize : ℚ) : ℚ :=
  let price0 :=
    match side with
    | PSide.LONG =>
      if cfg.makerPriceMode = "at_touch" then bestAsk
      else if cfg.makerPriceMode = "inside_spread_1tick" then bestAsk - tickSize
      else if cfg.makerPriceMode = "custom_ticks" then bestAsk - tickSize * cfg.makerNTicks
      else bestAsk - tickSize
    | PSide.SHORT =>
      if cfg.makerPriceMode = "at_touch" then bestBid
      else if cfg.makerPriceMode = "inside_spread_1tick" then bestBid + tickSize
      else if cfg.makerPriceMode = "custom_ticks" then bestBid + tickSize * cfg.makerNTicks
      else bestBid + tickSize
  let price1 := roundToTick price0 tickSize
  if 0 < tickSize then
    match side with
    | PSide.LONG =>
      let minMakerPrice := roundToTick bestBid tickSize + tickSize * cfg.makerSafetyTicks
      if price1 < minMakerPrice then minMakerPrice else price1
    | PSide.SHORT =>
      let maxMakerPrice0 := roundToTick bestAsk tickSize - tickSize * cfg.makerSafetyTicks
      let maxMakerPrice := if maxMakerPrice0 ≤ 0 then tickSize else maxMakerPrice0
      if maxMakerPrice < price1 then maxMakerPrice else price1
  else price1

/-- `ExecutionEngine.build_aggressive_limit_price`: SELL (LONG close) floors
the best bid to tick; BUY (SHORT close) floors the best ask and adds one tick
if flooring fell strictly below the ask. -/
def buildAggressiveLimitPrice (side : PSide) (bestBid bestAsk tickSize : ℚ) : ℚ :=
  if tickSize ≤ 0 then
    match side with
    | PSide.LONG => bestBid
    | PSide.SHORT => bestAsk
  else
    match side with
    | PSide.LONG => roundToTick bestBid tickSize
    | PSide.SHORT =>
      let price := roundToTick bestAsk tickSize
      if price < bestAsk then price + tickSize else price

/-- `ExecutionEngine.compute_panic_qty`: slice the absolute position by
`slice_ratio`, floor to step, raise to `min_qty` when the floor collapses,
cap at the position, and return `0` below `min_qty`. -/
def computePanicQty (positionAmt minQty stepSize sliceRatio : ℚ) : ℚ :=
  let absPosition := |positionAmt|
  if absPosition < minQty then 0
  else if sliceRatio ≤ 0 then 0
  else
    let rawQty := absPosition * sliceRatio
    let qty0 := roundToStep rawQty stepSize
    let qty1 := if qty0 < minQty then minQty else qty0
    let qty2 := if absPosition < qty1 then roundToStep absPosition stepSize else qty1
    if qty2 < minQty then 0 else qty2

/-- Claim C1 counterexample: with `maker_price_mode = inside_spread_1tick`,
`maker_safety_ticks = 1`, `tick = 0.001` and a book `best_bid = 8.0515 ≤
best_ask = 8.0525` that is not tick-aligned, the LONG (SELL) maker price is
`8.052`, strictly below `best_bid + safety·tick = 8.0525`: the safety clamp
uses the tick-floored best bid, not the raw best bid. -/
theorem buildMakerPrice_long_bound_fails :
    (16103/2000 : ℚ) ≤ 16105/2000 ∧ (0 : ℚ) < 1/1000 ∧
    buildMakerPrice { makerSafetyTicks := 1 } PSide.LONG (16103/2000) (16105/2000) (1/1000)
      < 16103/2000 + 1 * (1/1000) := by
  have hprice0 : roundToTick ((16105/2000 : ℚ) - 1/1000) (1/1000) = (8051 : ℚ) * (1/1000) :=
    roundToTick_eval 8051 (by norm_num) (by norm_num) (by norm_num) (by norm_num)
  have hbidv : roundToTick (16103/2000 : ℚ) (1/1000) = (8051 : ℚ) * (1/1000) :=
    roundToTick_eval 8051 (by norm_num) (by norm_num) (by norm_num) (by norm_num)
  have hmode1 : ¬ (("inside_spread_1tick" : String) = "at_touch") := by decide
  refine ⟨by norm_num, by norm_num, ?_⟩
  simp only [buildMakerPrice, ite_true, ite_false]
  rw [if_neg hmode1, hprice0, hbidv]
  norm_num

/-- Claim C1 (amended): when the book is tick-aligned (`best_bid` and
`best_ask` are integer multiples of `tick > 0`), the post-only safety bound
holds: the LONG (SELL) maker price is `≥ best_bid + safety·tick`, and —
provided `best_ask − safety·tick > 0` so the one-tick fallback is not taken —
the SHORT (BUY) maker price is `≤ best_ask − safety·tick`.  On misaligned
books the bound is anchored at the tick-floored opposing price instead, and a
SHORT book with `best_ask ≤ safety·tick` clamps to one tick. -/
theorem buildMakerPrice_post_only_safe (cfg : EngineCfg) (bestBid bestAsk tickSize : ℚ)
    (bi ai : ℤ) (htick : 0 < tickSize) (hbid : bestBid = (bi : ℚ) * tickSize)
    (hask : bestAsk = (ai : ℚ) * tickSize) :
    bestBid + (cfg.makerSafetyTicks : ℚ) * tickSize ≤
      buildMakerPrice cfg PSide.LONG bestBid bestAsk tickSize ∧
    (0 < bestAsk - (cfg.makerSafetyTicks : ℚ) * tickSize →
      buildMakerPrice cfg PSide.SHORT bestBid bestAsk tickSize ≤
        bestAsk - (cfg.makerSafetyTicks : ℚ) * tickSize) := by
  have hbfix : roundToTick bestBid tickSize = bestBid := by
    rw [hbid]; exact roundToTick_mul_int bi htick
  have hafix : roundToTick bestAsk tickSize = bestAsk := by
    rw [hask]; exact roundToTick_mul_int ai htick
  constructor
  · simp only [buildMakerPrice, if_pos htick, hbfix]
    split_ifs <;> linarith [mul_comm tickSize ((cfg.makerSafetyTicks : ℚ))]
  · intro hfall
    simp only [buildMakerPrice, if_pos htick, hafix]
    have hmax0 : ¬ (bestAsk - tickSize * (cfg.makerSafetyTicks : ℚ) ≤ 0) := by
      intro hle
      have hc : tickSize * (cfg.makerSafetyTicks : ℚ) = (cfg.makerSafetyTicks : ℚ) * tickSize :=
        mul_comm _ _
      linarith
    rw [if_neg hmax0]
    split_ifs <;> linarith [mul_comm tickSize ((cfg.makerSafetyTicks : ℚ))]

/-- Witness for `buildMakerPrice_post_only_safe`: `at_touch` mode,
`safety = 2`, `tick = 0.001`, aligned book `8.051 / 8.052`. -/
theorem buildMakerPrice_post_only_safe_witness :
    (0 : ℚ) < 1/1000 ∧ (8051/1000 : ℚ) = (8051 : ℤ) * (1/1000 : ℚ) ∧
    (8052/1000 : ℚ) = (8052 : ℤ) * (1/1000 : ℚ) ∧
    ((8051/1000 : ℚ) + ((2 : ℤ) : ℚ) * (1/1000) ≤
      buildMakerPrice { makerPriceMode := "at_touch", makerSafetyTicks := 2 }
        PSide.LONG (8051/1000) (8052/1000) (1/1000) ∧
    (0 < (8052/1000 : ℚ) - ((2 : ℤ) : ℚ) * (1/1000) →
      buildMakerPrice { makerPriceMode := "at_touch", makerSafetyTicks := 2 }
        PSide.SHORT (8051/1000) (8052/1000) (1/1000) ≤
          (8052/1000 : ℚ) - ((2 : ℤ) : ℚ) * (1/1000))) := by
  refine ⟨by norm_num, by norm_num, by norm_num, ?_⟩
  exact buildMakerPrice_post_only_safe { makerPriceMode := "at_touch", makerSafetyTicks := 2 }
    (8051/1000) (8052/1000) (1/1000) 8051 8052 (by norm_num) (by norm_num) (by norm_num)

/-- Claim C7: for `|position_amt| ≥ min_qty` and `slice_ratio ∈ (0, 1]`, the
panic slice equals
`clamp(round_down(|position|·ratio, step), min_qty, round_down(|position|, step))`
(with `clamp v lo hi = max lo (min v hi)`); in particular a slice that floors
to `0` is raised to `min_qty`. -/
theorem computePanicQty_clamp (positionAmt minQty stepSize sliceRatio : ℚ)
    (hpos : minQty ≤ |positionAmt|) (h0 : 0 < sliceRatio) (h1 : sliceRatio ≤ 1) :
    computePanicQty positionAmt minQty stepSize sliceRatio =
      max minQty (min (roundToStep (|positionAmt| * sliceRatio) stepSize)
        (roundToStep |positionAmt| stepSize)) := by
  have habs : (0 : ℚ) ≤ |positionAmt| := abs_nonneg _
  have hraw_le : |positionAmt| * sliceRatio ≤ |positionAmt| := by
    calc |positionAmt| * sliceRatio ≤ |positionAmt| * 1 := by
          exact mul_le_mul_of_nonneg_left h1 habs
      _ = |positionAmt| := mul_one _
  have hq_le_raw : roundToStep (|positionAmt| * sliceRatio) stepSize ≤ |positionAmt| * sliceRatio := by
    by_cases hs : stepSize ≤ 0
    · simp [roundToStep, hs]
    · have := roundToTick_le (v := |positionAmt| * sliceRatio)
        (mul_nonneg habs h0.le) (lt_of_not_ge hs)
      simpa [roundToStep, roundToTick] using this
  have hq_mono : roundToStep (|positionAmt| * sliceRatio) stepSize ≤
      roundToStep |positionAmt| stepSize := by
    have := roundToTick_mono (t := stepSize) hraw_le
    simpa [roundToStep, roundToTick] using this
  have hmin : min (roundToStep (|positionAmt| * sliceRatio) stepSize)
      (roundToStep |positionAmt| stepSize) =
      roundToStep (|positionAmt| * sliceRatio) stepSize := min_eq_left hq_mono
  rw [hmin]
  simp only [computePanicQty, if_neg (not_lt.mpr hpos), if_neg (not_le.mpr h0)]
  set q := roundToStep (|positionAmt| * sliceRatio) stepSize with hq
  by_cases hlow : q < minQty
  · rw [if_pos hlow]
    have hnot : ¬ |positionAmt| < minQty := not_lt.mpr hpos
    rw [if_neg hnot, if_neg (lt_irrefl minQty)]
    exact (max_eq_left hlow.le).symm
  · rw [if_neg hlow]
    have hqle : q ≤ |positionAmt| := le_trans hq_le_raw hraw_le
    rw [if_neg (not_lt.mpr hqle), if_neg (not_lt.mpr (le_of_not_gt hlow))]
    exact (max_eq_right (le_of_not_gt hlow)).symm

/-- Witness for `computePanicQty_clamp`: the spec's boundary example
`position = 0.15, step = 0.1, min_qty = 0.1, slice_ratio = 0.01` yields
`0.1`, and `position = 0.19` also yields `0.1`. -/
theorem computePanicQty_clamp_witness :
    ((1/10 : ℚ) ≤ |(15/100 : ℚ)| ∧ (0 : ℚ) < 1/100 ∧ (1/100 : ℚ) ≤ 1 ∧
      computePanicQty (15/100) (1/10) (1/10) (1/100) =
        max (1/10) (min (roundToStep (|(15/100 : ℚ)| * (1/100)) (1/10))
          (roundToStep |(15/100 : ℚ)| (1/10)))) ∧
    computePanicQty (15/100) (1/10) (1/10) (1/100) = 1/10 ∧
    computePanicQty (19/100) (1/10) (1/10) (1/100) = 1/10 := by
  have h15 : |(15/100 : ℚ)| = 15/100 := by rw [abs_of_pos]; norm_num
  have h19 : |(19/100 : ℚ)| = 19/100 := by rw [abs_of_pos]; norm_num
  have hr15 : roundToStep ((15/100 : ℚ) * (1/100)) (1/10) = (0 : ℚ) * (1/10) := by
    refine roundToTick_eval 0 (by norm_num) (by norm_num) (by norm_num) (by norm_num)
  have hr19 : roundToStep ((19/100 : ℚ) * (1/100)) (1/10) = (0 : ℚ) * (1/10) := by
    refine roundToTick_eval 0 (by norm_num) (by norm_num) (by norm_num) (by norm_num)
  have hfull15 : roundToStep (15/100 : ℚ) (1/10) = (1 : ℚ) * (1/10) := by
    refine roundToTick_eval 1 (by norm_num) (by norm_num) (by norm_num) (by norm_num)
  have hmain := computePanicQty_clamp (15/100) (1/10) (1/10) (1/100)
    (by rw [h15]; norm_num) (by norm_num) (by norm_num)
  have hmain19 := computePanicQty_clamp (19/100) (1/10) (1/10) (1/100)
    (by rw [h19]; norm_num) (by norm_num) (by norm_num)
  have hfull19 : roundToStep (19/100 : ℚ) (1/10) = (1 : ℚ) * (1/10) := by
    refine roundToTick_eval 1 (by norm_num) (by norm_num) (by norm_num) (by norm_num)
  refine ⟨⟨by rw [h15]; norm_num, by norm_num, by norm_num, hmain⟩, ?_, ?_⟩
  · rw [hmain, h15, hr15, hfull15]
    norm_num
  · rw [hmain19, h19, hr19, hfull19]
    norm_num

/-! ## Order intents and exchange-adapter parameters
(`src/models.py`, `src/exchange/adapter.py`) -/

/-- Order type (`src/models.py`, `OrderType`). -/
inductive OType
  | LIMIT
  | STOP_MARKET
deriving DecidableEq, Repr

/-- `OrderIntent` (`src/models.py`), with the dataclass defaults. -/
structure OrderIntentM where
  symbol : String
  side : OSide
  positionSide : PSide
  qty : ℚ
  price : Option ℚ := none
  stopPrice : Option ℚ := none
  orderType : OType := OType.LIMIT
  timeInForce : TIF := TIF.GTX
  reduceOnly : Bool := true
  closePosition : Bool := false
  clientOrderId : Option String := none
  isRisk : Bool := false
deriving DecidableEq, Repr

/-- The REST parameters assembled by `ExchangeAdapter.place_order`
(`src/exchange/adapter.py`): `positionSide` always, `reduceOnly` never;
STOP_MARKET carries `stopPrice`, `workingType = MARK_PRICE` and, under
`closePosition`, `closePosition = true` with the amount omitted. -/
structure BinanceOrderParams where
  positionSide : String
  newClientOrderId : Option String
  timeInForce : Option String
  stopPrice : Option ℚ
  workingType : Option String
  closePosition : Option Bool
  amount : Option ℚ
  price : Option ℚ
  reduceOnlySent : Bool
deriving DecidableEq, Repr

/-- Parameter building of `ExchangeAdapter.place_order`; `none` models the
`ValueError` raised for a STOP_MARKET intent without a stop price. -/
def buildOrderParams (intent : OrderIntentM) : Option BinanceOrderParams :=
  let positionSide := match intent.positionSide with
    | PSide.LONG => "LONG"
    | PSide.SHORT => "SHORT"
  let tifStr := match intent.timeInForce with
    | TIF.GTC => "GTC"
    | TIF.GTX => "GTX"
    | TIF.IOC => "IOC"
    | TIF.FOK => "FOK"
  match intent.orderType with
  | OType.LIMIT =>
    some { positionSide := positionSide, newClientOrderId := intent.clientOrderId,
           timeInForce := some tifStr, stopPrice := none, workingType := none,
           closePosition := none, amount := some intent.qty, price := intent.price,
           reduceOnlySent := false }
  | OType.STOP_MARKET =>
    match intent.stopPrice with
    | none => none
    | some sp =>
      if intent.closePosition then
        some { positionSide := positionSide, newClientOrderId := intent.clientOrderId,
               timeInForce := none, stopPrice := some sp,
               workingType := some "MARK_PRICE", closePosition := some true,
               amount := none, price := none, reduceOnlySent := false }
      else
        some { positionSide := positionSide, newClientOrderId := intent.clientOrderId,
               timeInForce := none, stopPrice := some sp,
               workingType := some "MARK_PRICE", closePosition := none,
               amount := some intent.qty, price := none, reduceOnlySent := false }

/-! ## Protective-stop manager (`src/risk/protective_stop.py`) -/

/-- An open order as seen by `_sync_side` after field extraction:
`_extract_order_id`, `_extract_stop_price`, `_extract_client_order_id`. -/
structure StopOrderInfo where
  orderId : Option String
  stopPrice : Option ℚ
  clientOrderId : Option String
deriving DecidableEq, Repr

/-- `ProtectiveStopState` (`src/risk/protective_stop.py`). -/
structure StopRecord where
  clientOrderId : String
  orderId : Option String
  stopPrice : Option ℚ
deriving DecidableEq, Repr

/-- An exchange mutation issued during a sync. -/
inductive StopAction
  | cancelOrder (orderId : String)
  | placeStopOrder (intent : OrderIntentM)
deriving DecidableEq, Repr

/-- Effect of a sync on the manager's local `(symbol, side)` record. -/
inductive StateEffect
  | pop
  | keep
  | set (record : StopRecord)
deriving DecidableEq, Repr

/-- `ProtectiveStopManager.compute_stop_price`; `none` models the
`ValueError`s for `liquidation_price ≤ 0` and `dist_to_liq ∉ (0, 1)`. -/
def computeStopPrice (side : PSide) (liquidationPrice distToLiq tickSize : ℚ) : Option ℚ :=
  if liquidationPrice ≤ 0 then none
  else if distToLiq ≤ 0 ∨ 1 ≤ distToLiq then none
  else some (match side with
    | PSide.LONG => roundUpToTick (liquidationPrice / (1 - distToLiq)) tickSize
    | PSide.SHORT => roundToTick (liquidationPrice / (1 + distToLiq)) tickSize)

/-- The inputs of one `ProtectiveStopManager._sync_side` call for one
`(symbol, side)`, together with the exchange's responses to the mutations the
call may issue (`cancelOk id` — whether `cancel_order(symbol, id)` succeeds;
`placeOrderId` — the order id returned by a successful `place_order`, `none`
for a failed placement). -/
structure SyncSideInput where
  symbol : String
  side : PSide
  tickSize : ℚ
  existingOrders : List StopOrderInfo
  enabled : Bool
  hasPosition : Bool
  liquidationPrice : Option ℚ
  distToLiq : ℚ
  hasExternalStop : Bool
  hasExternalStopLatch : Bool
  desiredCid : String
  cancelOk : String → Bool
  placeOrderId : Option String

/-- The replacement STOP_MARKET intent built at the end of `_sync_side`:
SELL for LONG / BUY for SHORT, `qty = 0` with `closePosition = true`,
`reduce_only = true`, `is_risk = true`. -/
def replacementStopIntent (inp : SyncSideInput) (desired : ℚ) : OrderIntentM :=
  { symbol := inp.symbol,
    side := (match inp.side with
      | PSide.LONG => OSide.SELL
      | PSide.SHORT => OSide.BUY),
    positionSide := inp.side, qty := 0,
    orderType := OType.STOP_MARKET, stopPrice := some desired,
    closePosition := true, reduceOnly := true,
    clientOrderId := some inp.desiredCid, isRisk := true }

/-- The tail of `_sync_side`: cancel the existing own order (abort on cancel
failure) and place the replacement STOP_MARKET. -/
def syncSidePlace (inp : SyncSideInput) (dupCancels : List StopAction)
    (existingId : Option String) (desired : ℚ) : List StopAction × StateEffect :=
  let intent := replacementStopIntent inp desired
  let afterCancel : List StopAction → List StopAction × StateEffect := fun acts =>
    match inp.placeOrderId with
    | none => (acts ++ [StopAction.placeStopOrder intent], StateEffect.keep)
    | some newId =>
      (acts ++ [StopAction.placeStopOrder intent],
        StateEffect.set ⟨inp.desiredCid, some newId, some desired⟩)
  match existingId with
  | some oid =>
    if inp.cancelOk oid then afterCancel (dupCancels ++ [StopAction.cancelOrder oid])
    else (dupCancels ++ [StopAction.cancelOrder oid], StateEffect.keep)
  | none => afterCancel dupCancels

/-- `ProtectiveStopManager._sync_side`: prune duplicate own orders, clean up
when disabled or flat, yield to any REST-visible external stop, freeze under
the external-takeover latch, then enforce tighten-only maintenance of the own
STOP_MARKET. -/
def syncSide (inp : SyncSideInput) : List StopAction × StateEffect :=
  let keepOrder := inp.existingOrders.head?
  let dupCancels := (inp.existingOrders.drop 1).filterMap
    (fun o => o.orderId.map StopAction.cancelOrder)
  if ¬ inp.enabled ∨ ¬ inp.hasPosition then
    match keepOrder with
    | some ko =>
      match ko.orderId with
      | some oid => (dupCancels ++ [StopAction.cancelOrder oid], StateEffect.pop)
      | none => (dupCancels, StateEffect.pop)
    | none => (dupCancels, StateEffect.pop)
  else if inp.hasExternalStop then
    match keepOrder with
    | some ko =>
      match ko.orderId with
      | some oid =>
        if inp.cancelOk oid then (dupCancels ++ [StopAction.cancelOrder oid], StateEffect.pop)
        else (dupCancels ++ [StopAction.cancelOrder oid], StateEffect.keep)
      | none => (dupCancels, StateEffect.pop)
    | none => (dupCancels, StateEffect.pop)
  else if inp.hasExternalStopLatch then
    (dupCancels, StateEffect.keep)
  else
    match inp.liquidationPrice with
    | none => (dupCancels, StateEffect.keep)
    | some liq =>
      if liq ≤ 0 then (dupCancels, StateEffect.keep)
      else
        match computeStopPrice inp.side liq inp.distToLiq inp.tickSize with
        | none => (dupCancels, StateEffect.keep)
        | some desired =>
          let existingId := keepOrder.bind (fun o => o.orderId)
          let existingCid := keepOrder.bind (fun o => o.clientOrderId)
          match keepOrder, keepOrder.bind (fun o => o.stopPrice) with
          | some _, some esp =>
            let existingNorm := roundToTick esp inp.tickSize
            let desiredNorm := roundToTick desired inp.tickSize
            let widens := match inp.side with
              | PSide.LONG => decide (desiredNorm < existingNorm)
              | PSide.SHORT => decide (existingNorm < desiredNorm)
            if widens then
              (dupCancels, StateEffect.set
                ⟨existingCid.getD inp.desiredCid, existingId, some existingNorm⟩)
            else if existingNorm = desiredNorm then
              (dupCancels, StateEffect.set
                ⟨existingCid.getD inp.desiredCid, existingId, some existingNorm⟩)
            else syncSidePlace inp dupCancels existingId desired
          | _, _ => syncSidePlace inp dupCancels existingId desired

/-- Modelled from the spec: the stop-price validity classifier
`is_stop_price_valid` is exercised by `tests/test_protective_stop.py`
(`TestStopPriceValidation`, `TestInvalidExternalStop`) but is absent from
`src/risk/protective_stop.py`.  Spec §4.8: an external stop's price is valid
iff it is strictly above `liq·(1+ε)` for LONG and strictly below `liq·(1−ε)`
for SHORT, with `ε = min_dist_ratio` defaulting to `1e-4`. -/
def isStopPriceValid (side : PSide) (stopPrice liquidationPrice : ℚ)
    (minDistRatio : ℚ := 1/10000) : Bool :=
  match side with
  | PSide.LONG => decide (liquidationPrice * (1 + minDistRatio) < stopPrice)
  | PSide.SHORT => decide (stopPrice < liquidationPrice * (1 - minDistRatio))

/-- The failing input of claim C2, mirroring
`tests/test_protective_stop.py::TestInvalidExternalStop::test_cancels_invalid_external_short_stop`:
SHORT position with liquidation price 100, no own order, one external
reduce-only STOP_MARKET at stop price 110 (invalid: above the liquidation
price), takeover latch not set. -/
def invalidExternalInput : SyncSideInput :=
  { symbol := "BTC/USDT:USDT", side := PSide.SHORT, tickSize := 1/10,
    existingOrders := [], enabled := true, hasPosition := true,
    liquidationPrice := some 100, distToLiq := 1/100, hasExternalStop := true,
    hasExternalStopLatch := false, desiredCid := "vq-ps-btcusdt-S-11111",
    cancelOk := fun _ => true, placeOrderId := some "new-1" }

/-- Claim C2: the repository's own tests require `_sync_side` to classify each
external stop's price against the liquidation price, cancel invalid externals
individually and then place its own stop; the shipped `_sync_side` has no such
classification and yields to any external stop unconditionally.  On the
failing input (external SHORT stop at 110 with liquidation price 100, invalid
per the spec's validity rule) the sync issues no cancel and no placement. -/
theorem syncSide_yields_to_invalid_external :
    (syncSide invalidExternalInput).1 = [] ∧
    (syncSide invalidExternalInput).2 = StateEffect.pop ∧
    isStopPriceValid PSide.SHORT 110 100 = false := by
  refine ⟨?_, ?_, ?_⟩
  · rfl
  · rfl
  · simp only [isStopPriceValid, decide_eq_false_iff_not]
    norm_num

/-- A latched sync call on a side whose position is flat while one own stop
order is still open (claim C3 counterexample input). -/
def latchedFlatInput : SyncSideInput :=
  { symbol := "BTC/USDT:USDT", side := PSide.LONG, tickSize := 1/10,
    existingOrders := [⟨some "own-1", some 100, some "vq-ps-btcusdt-L-11111"⟩],
    enabled := true, hasPosition := false,
    liquidationPrice := none, distToLiq := 1/100, hasExternalStop := false,
    hasExternalStopLatch := true, desiredCid := "vq-ps-btcusdt-L-22222",
    cancelOk := fun _ => true, placeOrderId := none }

/-- Claim C3 counterexample: the latch is consulted only after the
duplicate-pruning, no-position and external-stop branches, so a latched sync
for a side whose position became flat still cancels the own stop order —
an order mutation performed while the latch is set, contradicting
"no cancels … regardless of position state". -/
theorem syncSide_latched_still_cancels :
    latchedFlatInput.hasExternalStopLatch = true ∧
    syncSide latchedFlatInput = ([StopAction.cancelOrder "own-1"], StateEffect.pop) := by
  exact ⟨rfl, rfl⟩

/-- Claim C3 (amended): while a side is latched, a sync that reaches the latch
check — side enabled, position present, no REST-visible external stop, and at
most one own order (no duplicates to prune) — performs no order mutation:
no cancels, no placements, and the local record is left untouched.  Cancels
from duplicate pruning, from the no-position cleanup and from the
external-stop branch still happen while latched. -/
theorem syncSide_latched_frozen (inp : SyncSideInput)
    (hl : inp.hasExternalStopLatch = true) (he : inp.enabled = true)
    (hp : inp.hasPosition = true) (hx : inp.hasExternalStop = false)
    (hlen : inp.existingOrders.length ≤ 1) :
    syncSide inp = ([], StateEffect.keep) := by
  have hdrop : inp.existingOrders.drop 1 = [] := by
    exact List.drop_eq_nil_iff.mpr hlen
  simp [syncSide, hl, he, hp, hx, hdrop]

/-- A latched sync call with a live position and a single own stop order
(witness input for the amended claim C3). -/
def latchedKeepInput : SyncSideInput :=
  { symbol := "BTC/USDT:USDT", side := PSide.LONG, tickSize := 1/10,
    existingOrders := [⟨some "own-1", some 100, some "vq-ps-btcusdt-L-11111"⟩],
    enabled := true, hasPosition := true,
    liquidationPrice := some 90, distToLiq := 1/100, hasExternalStop := false,
    hasExternalStopLatch := true, desiredCid := "vq-ps-btcusdt-L-22222",
    cancelOk := fun _ => true, placeOrderId := none }

/-- Witness for `syncSide_latched_frozen`: a latched LONG side with a position
and a single own stop order is left untouched. -/
theorem syncSide_latched_frozen_witness :
    syncSide latchedKeepInput = ([], StateEffect.keep) := by
  exact syncSide_latched_frozen latchedKeepInput rfl rfl rfl rfl (by decide)

lemma syncSide_tighten_eq (inp : SyncSideInput) (o : StopOrderInfo) (oid : String)
    (esp liq desired : ℚ)
    (horders : inp.existingOrders = [o]) (he : inp.enabled = true)
    (hp : inp.hasPosition = true) (hx : inp.hasExternalStop = false)
    (hl : inp.hasExternalStopLatch = false)
    (hliq : inp.liquidationPrice = some liq) (hliqpos : 0 < liq)
    (hdes : computeStopPrice inp.side liq inp.distToLiq inp.tickSize = some desired)
    (hoid : o.orderId = some oid) (hosp : o.stopPrice = some esp) :
    syncSide inp =
      (if (match inp.side with
          | PSide.LONG => decide (roundToTick desired inp.tickSize < roundToTick esp inp.tickSize)
          | PSide.SHORT => decide (roundToTick esp inp.tickSize < roundToTick desired inp.tickSize))
        then
          ([], StateEffect.set
            ⟨(o.clientOrderId).getD inp.desiredCid, some oid, some (roundToTick esp inp.tickSize)⟩)
        else if roundToTick esp inp.tickSize = roundToTick desired inp.tickSize then
          ([], StateEffect.set
            ⟨(o.clientOrderId).getD inp.desiredCid, some oid, some (roundToTick esp inp.tickSize)⟩)
        else syncSidePlace inp [] (some oid) desired) := by
  simp [syncSide, horders, he, hp, hx, hl, hliq, not_le.mpr hliqpos, hdes, hoid, hosp]

/-- Claim C4: tighten-only maintenance of the own protective stop.  With a
position, no external stop and no latch, a single own order at stop price
`esp` and desired price `desired`: (i) if the tick-normalised desired price is
wider (LONG: lower, SHORT: higher) the existing order is kept with no exchange
mutation; (ii) if equal under tick-normalised comparison it is kept; (iii)
otherwise the existing order is cancelled and — only if the cancel succeeded —
one new STOP_MARKET with `closePosition = true`, `reduce_only = true` and wire
parameter `workingType = MARK_PRICE` is placed at the desired price; a failed
cancel places nothing; (iv) any record written by the sync is at least as
tight as the existing one (LONG non-decreasing, SHORT non-increasing under
tick normalisation). -/
theorem syncSide_tighten_only (inp : SyncSideInput) (o : StopOrderInfo) (oid : String)
    (esp liq desired : ℚ)
    (horders : inp.existingOrders = [o]) (he : inp.enabled = true)
    (hp : inp.hasPosition = true) (hx : inp.hasExternalStop = false)
    (hl : inp.hasExternalStopLatch = false)
    (hliq : inp.liquidationPrice = some liq) (hliqpos : 0 < liq)
    (hdes : computeStopPrice inp.side liq inp.distToLiq inp.tickSize = some desired)
    (hoid : o.orderId = some oid) (hosp : o.stopPrice = some esp) :
    ((inp.side = PSide.LONG ∧ roundToTick desired inp.tickSize < roundToTick esp inp.tickSize) ∨
     (inp.side = PSide.SHORT ∧ roundToTick esp inp.tickSize < roundToTick desired inp.tickSize) →
      syncSide inp = ([], StateEffect.set
        ⟨(o.clientOrderId).getD inp.desiredCid, some oid, some (roundToTick esp inp.tickSize)⟩)) ∧
    (roundToTick esp inp.tickSize = roundToTick desired inp.tickSize →
      syncSide inp = ([], StateEffect.set
        ⟨(o.clientOrderId).getD inp.desiredCid, some oid, some (roundToTick esp inp.tickSize)⟩)) ∧
    (¬ ((inp.side = PSide.LONG ∧ roundToTick desired inp.tickSize < roundToTick esp inp.tickSize) ∨
        (inp.side = PSide.SHORT ∧ roundToTick esp inp.tickSize < roundToTick desired inp.tickSize)) →
     roundToTick esp inp.tickSize ≠ roundToTick desired inp.tickSize →
      (inp.cancelOk oid = false →
        syncSide inp = ([StopAction.cancelOrder oid], StateEffect.keep)) ∧
      (inp.cancelOk oid = true →
        ∃ intent, (syncSide inp).1 =
            [StopAction.cancelOrder oid, StopAction.placeStopOrder intent] ∧
          intent.orderType = OType.STOP_MARKET ∧ intent.closePosition = true ∧
          intent.reduceOnly = true ∧ intent.stopPrice = some desired ∧
          (buildOrderParams intent).map (fun p => p.workingType) = some (some "MARK_PRICE"))) ∧
    (∀ r, (syncSide inp).2 = StateEffect.set r → ∀ sp, r.stopPrice = some sp →
      (inp.side = PSide.LONG →
        roundToTick esp inp.tickSize ≤ roundToTick sp inp.tickSize) ∧
      (inp.side = PSide.SHORT →
        roundToTick sp inp.tickSize ≤ roundToTick esp inp.tickSize)) := by
  have hmain := syncSide_tighten_eq inp o oid esp liq desired horders he hp hx hl hliq
    hliqpos hdes hoid hosp
  have hidem : roundToTick (roundToTick esp inp.tickSize) inp.tickSize =
      roundToTick esp inp.tickSize := by
    by_cases ht : inp.tickSize ≤ 0
    · simp [roundToTick, ht]
    · have htpos : 0 < inp.tickSize := lt_of_not_ge ht
      have : roundToTick esp inp.tickSize =
          ((ratTrunc (esp / inp.tickSize) : ℚ)) * inp.tickSize := by
        simp [roundToTick, ht]
      rw [this]
      exact roundToTick_mul_int _ htpos
  set en := roundToTick esp inp.tickSize with hen
  set dn := roundToTick desired inp.tickSize with hdn
  refine ⟨?_, ?_, ?_, ?_⟩
  · intro hw
    rw [hmain]
    rcases hw with ⟨hs, hlt⟩ | ⟨hs, hlt⟩ <;> rw [hs] <;> simp [hlt]
  · intro heq
    rw [hmain]
    cases hs : inp.side
    · by_cases hlt : dn < en
      · simp [hlt]
      · simp [hlt, heq]
    · by_cases hlt : en < dn
      · simp [hlt]
      · simp [hlt, heq]
  · intro hnw hne
    have hwfalse : (match inp.side with
        | PSide.LONG => decide (dn < en)
        | PSide.SHORT => decide (en < dn)) = false := by
      cases hs : inp.side
      · simp only [decide_eq_false_iff_not]
        intro hlt
        exact hnw (Or.inl ⟨hs, hlt⟩)
      · simp only [decide_eq_false_iff_not]
        intro hlt
        exact hnw (Or.inr ⟨hs, hlt⟩)
    rw [hmain, hwfalse]
    simp only [Bool.false_eq_true, if_false, if_neg hne]
    constructor
    · intro hc
      simp [syncSidePlace, hc]
    · intro hc
      refine ⟨replacementStopIntent inp desired, ?_, rfl, rfl, rfl, rfl, ?_⟩
      · cases hpl : inp.placeOrderId <;> simp [syncSidePlace, hc, hpl]
      · simp [buildOrderParams, replacementStopIntent]
  · intro r hr sp hsp
    rw [hmain] at hr
    by_cases hw : (match inp.side with
        | PSide.LONG => decide (dn < en)
        | PSide.SHORT => decide (en < dn)) = true
    · rw [if_pos hw] at hr
      simp only [StateEffect.set.injEq] at hr
      obtain rfl := hr.symm
      simp only [Option.some.injEq] at hsp
      obtain rfl := hsp
      rw [hidem]
      exact ⟨fun _ => le_refl _, fun _ => le_refl _⟩
    · rw [if_neg hw] at hr
      by_cases heq : en = dn
      · rw [if_pos heq] at hr
        simp only [StateEffect.set.injEq] at hr
        obtain rfl := hr.symm
        simp only [Option.some.injEq] at hsp
        obtain rfl := hsp
        rw [hidem]
        exact ⟨fun _ => le_refl _, fun _ => le_refl _⟩
      · rw [if_neg heq] at hr
        by_cases hc : inp.cancelOk oid = true
        · cases hpl : inp.placeOrderId with
          | none =>
            simp [syncSidePlace, hc, hpl] at hr
          | some newId =>
            simp only [syncSidePlace, hc, hpl, if_true] at hr
            simp only [StateEffect.set.injEq] at hr
            obtain rfl := hr.symm
            simp only [Option.some.injEq] at hsp
            obtain rfl := hsp
            rw [← hdn]
            constructor
            · intro hs
              rw [hs] at hw
              simp only [decide_eq_true_eq] at hw
              exact le_of_not_lt hw
            · intro hs
              rw [hs] at hw
              simp only [decide_eq_true_eq] at hw
              exact le_of_not_lt hw
        · simp [syncSidePlace, hc] at hr

/-- A sync call whose desired stop price equals the existing own stop under
tick normalisation (witness input for claim C4): liquidation 100,
`dist_to_liq = 0.01`, tick 0.1 gives desired `roundUp(100/0.99, 0.1) =
101.1`, matching the existing stop at 101.1. -/
def tightenKeepInput : SyncSideInput :=
  { symbol := "BTC/USDT:USDT", side := PSide.LONG, tickSize := 1/10,
    existingOrders := [⟨some "123", some (1011/10), some "vq-ps-btcusdt-L-11111"⟩],
    enabled := true, hasPosition := true,
    liquidationPrice := some 100, distToLiq := 1/100,
    hasExternalStop := false, hasExternalStopLatch := false,
    desiredCid := "vq-ps-btcusdt-L-22222",
    cancelOk := fun _ => true, placeOrderId := some "456" }

/-- Witness for `syncSide_tighten_only`: in the tick-normalised-equal case the
existing order is kept and only the local record is refreshed. -/
theorem syncSide_tighten_only_witness :
    computeStopPrice PSide.LONG 100 (1/100) (1/10) = some (100089/990) ∧
    syncSide tightenKeepInput =
      ([], StateEffect.set ⟨"vq-ps-btcusdt-L-11111", some "123", some (1011/10)⟩) := by
  have hup : roundUpToTick ((100 : ℚ) / (1 - 1/100)) (1/10) = 100089/990 := by
    have harg : ((100 : ℚ) / (1 - 1/100)) = 10000/99 := by norm_num
    rw [harg, roundUpToTick_cases (by norm_num) (by norm_num)]
    have hceil : (⌈(10000/99 : ℚ) / (1/10)⌉ : ℤ) = 1011 := by
      rw [Int.ceil_eq_iff]
      constructor <;> norm_num
    rw [hceil]
    norm_num
  have hdes : computeStopPrice PSide.LONG 100 (1/100) (1/10) = some (100089/990) := by
    rw [computeStopPrice, if_neg (by norm_num), if_neg (by norm_num)]
    simp only [hup]
  have hen : roundToTick (1011/10 : ℚ) (1/10) = (1011 : ℚ) * (1/10) :=
    roundToTick_eval 1011 (by norm_num) (by norm_num) (by norm_num) (by norm_num)
  have hdn : roundToTick (100089/990 : ℚ) (1/10) = (1011 : ℚ) * (1/10) :=
    roundToTick_eval 1011 (by norm_num) (by norm_num) (by norm_num) (by norm_num)
  have h := syncSide_tighten_only tightenKeepInput
    ⟨some "123", some (1011/10), some "vq-ps-btcusdt-L-11111"⟩ "123"
    (1011/10) 100 (100089/990) rfl rfl rfl rfl rfl rfl (by norm_num) hdes rfl rfl
  have h2 := h.2.1 (by
    show roundToTick (1011/10 : ℚ) (1/10) = roundToTick (100089/990) (1/10)
    rw [hen, hdn])
  refine ⟨hdes, ?_⟩
  rw [h2]
  have hev : roundToTick (1011/10 : ℚ) tightenKeepInput.tickSize = 1011/10 := by
    show roundToTick (1011/10 : ℚ) (1/10) = 1011/10
    rw [hen]
    norm_num
  rw [hev]
  rfl

/-! ## Rate limiting (`src/risk/manager.py`, `src/main.py`) -/

/-- Order status (`src/models.py`, `OrderStatus`). -/
inductive OStatus
  | NEW
  | PARTIALLY_FILLED
  | FILLED
  | CANCELED
  | REJECTED
  | EXPIRED
deriving DecidableEq, Repr

/-- `OrderResult` (`src/models.py`), with the dataclass defaults. -/
structure OrderResultM where
  success : Bool
  orderId : Option String := none
  clientOrderId : Option String := none
  status : Option OStatus := none
  filledQty : ℚ := 0
  avgPrice : ℚ := 0
  errorCode : Option String := none
  errorMessage : Option String := none
deriving DecidableEq, Repr

/-- Modelled from the spec: `SlidingWindowRateLimiter` — `src/risk/rate_limiter.py`
is imported by `RiskManager` (`src/risk/manager.py`) but the file is absent
from `src/`.  Spec §4.2: a sliding-window token gate accepting at most
`max_events` events in the trailing window. -/
structure SlidingWindowRateLimiter where
  maxEvents : ℕ
  windowMs : ℤ
  events : List ℤ
deriving DecidableEq, Repr

/-- Modelled from the spec: `try_acquire(now_ms)` trims stale timestamps from
the front, rejects if the queue length is `≥ max_events`, else pushes `now_ms`
and accepts. -/
def tryAcquire (l : SlidingWindowRateLimiter) (nowMs : ℤ) :
    Bool × SlidingWindowRateLimiter :=
  let trimmed := l.events.dropWhile (fun t => t ≤ nowMs - l.windowMs)
  if l.maxEvents ≤ trimmed.length then (false, { l with events := trimmed })
  else (true, { l with events := trimmed ++ [nowMs] })

/-- The two independent limiters owned by `RiskManager`
(`src/risk/manager.py`): order placements and order cancellations, each with a
one-second window. -/
structure RiskManagerState where
  orderLimiter : SlidingWindowRateLimiter
  cancelLimiter : SlidingWindowRateLimiter
deriving DecidableEq, Repr

/-- `RiskManager.can_place_order`: acquire from the placement limiter
(calling consumes quota). -/
def canPlaceOrder (rm : RiskManagerState) (nowMs : ℤ) : Bool × RiskManagerState :=
  let (ok, l) := tryAcquire rm.orderLimiter nowMs
  (ok, { rm with orderLimiter := l })

/-- `RiskManager.can_cancel_order`: acquire from the cancellation limiter. -/
def canCancelOrder (rm : RiskManagerState) (nowMs : ℤ) : Bool × RiskManagerState :=
  let (ok, l) := tryAcquire rm.cancelLimiter nowMs
  (ok, { rm with cancelLimiter := l })

/-- Outcome of the application-level gate: either the call proceeds to the
exchange or a synthetic result is returned without any exchange call. -/
inductive GateOutcome
  | proceed
  | rejected (result : OrderResultM)
deriving DecidableEq, Repr

/-- The synthetic result returned by `Application._place_order`
(`src/main.py`) when the placement limiter rejects. -/
def syntheticPlaceReject : OrderResultM :=
  { success := false, status := some OStatus.REJECTED,
    errorMessage := some "rate_limited: place_order" }

/-- The synthetic result returned by `Application._cancel_order`
(`src/main.py`) when the cancellation limiter rejects. -/
def syntheticCancelReject : OrderResultM :=
  { success := false, status := some OStatus.REJECTED,
    errorMessage := some "rate_limited: cancel_order" }

/-- The rate gate of `Application._place_order`: a non-risk intent consumes
placement quota and is rejected synthetically when over the cap; a risk-tagged
intent never touches the limiter. -/
def placeOrderGate (isRisk : Bool) (rm : RiskManagerState) (nowMs : ℤ) :
    GateOutcome × RiskManagerState :=
  if !isRisk then
    let (ok, rm2) := canPlaceOrder rm nowMs
    if !ok then (GateOutcome.rejected syntheticPlaceReject, rm2)
    else (GateOutcome.proceed, rm2)
  else (GateOutcome.proceed, rm)

/-- `Application._cancel_order` decides `is_risk_cancel` by scanning the LONG
and SHORT execution states for a current risk order with the same id:
`state.current_order_id == order_id and state.current_order_is_risk`. -/
def cancelIsRisk (states : List (Option String × Bool)) (orderId : String) : Bool :=
  states.any (fun s => s.1 = some orderId && s.2)

/-- The rate gate of `Application._cancel_order`. -/
def cancelOrderGate (isRiskCancel : Bool) (rm : RiskManagerState) (nowMs : ℤ) :
    GateOutcome × RiskManagerState :=
  if !isRiskCancel then
    let (ok, rm2) := canCancelOrder rm nowMs
    if !ok then (GateOutcome.rejected syntheticCancelReject, rm2)
    else (GateOutcome.proceed, rm2)
  else (GateOutcome.proceed, rm)

/-- Claim C6 counterexample: the synthetic rejection carries the rate-limit
marker in `error_message` (with a space, `"rate_limited: place_order"`), not
in `error_code`, which stays unset — the claim's
`error code "rate_limited:place_order"` matches neither the field nor the
literal.  Shown on a limiter at its cap (2 events in window, third call). -/
theorem rateLimitReject_field_mismatch :
    (placeOrderGate false
      ⟨⟨2, 1000, [0, 5]⟩, ⟨2, 1000, []⟩⟩ 10).1 = GateOutcome.rejected syntheticPlaceReject ∧
    syntheticPlaceReject.errorCode = none ∧
    syntheticPlaceReject.errorMessage = some "rate_limited: place_order" ∧
    ("rate_limited: place_order" = "rate_limited:place_order") = False := by
  refine ⟨by decide, rfl, rfl, by simp⟩

/-- Claim C6 (amended): a non-risk placement or cancellation issued when its
sliding-window limiter is at capacity returns, without any exchange call, a
synthetic `OrderResult` with `success = false`, `status = REJECTED`,
`error_code` unset and `error_message` `"rate_limited: place_order"` /
`"rate_limited: cancel_order"`; a risk-tagged call never touches either
limiter and always proceeds to the exchange. -/
theorem rate_limit_gating (rm : RiskManagerState) (nowMs : ℤ) :
    (rm.orderLimiter.maxEvents ≤
        ((rm.orderLimiter.events.dropWhile
          (fun t => t ≤ nowMs - rm.orderLimiter.windowMs)).length) →
      (placeOrderGate false rm nowMs).1 = GateOutcome.rejected syntheticPlaceReject ∧
      syntheticPlaceReject.success = false ∧
      syntheticPlaceReject.status = some OStatus.REJECTED ∧
      syntheticPlaceReject.errorCode = none ∧
      syntheticPlaceReject.errorMessage = some "rate_limited: place_order") ∧
    (rm.cancelLimiter.maxEvents ≤
        ((rm.cancelLimiter.events.dropWhile
          (fun t => t ≤ nowMs - rm.cancelLimiter.windowMs)).length) →
      (cancelOrderGate false rm nowMs).1 = GateOutcome.rejected syntheticCancelReject ∧
      syntheticCancelReject.success = false ∧
      syntheticCancelReject.status = some OStatus.REJECTED ∧
      syntheticCancelReject.errorCode = none ∧
      syntheticCancelReject.errorMessage = some "rate_limited: cancel_order") ∧
    placeOrderGate true rm nowMs = (GateOutcome.proceed, rm) ∧
    cancelOrderGate true rm nowMs = (GateOutcome.proceed, rm) := by
  refine ⟨?_, ?_, rfl, rfl⟩
  · intro hfull
    refine ⟨?_, rfl, rfl, rfl, rfl⟩
    simp [placeOrderGate, canPlaceOrder, tryAcquire, hfull]
  · intro hfull
    refine ⟨?_, rfl, rfl, rfl, rfl⟩
    simp [cancelOrderGate, canCancelOrder, tryAcquire, hfull]

/-- Witness for `rate_limit_gating`, following the spec's scenario: two
cancellations 5 ms apart with `max_cancels_per_sec = 2` fill the window; the
third non-risk cancellation is synthetically rejected and a fourth risk-tagged
one still proceeds. -/
theorem rate_limit_gating_witness :
    (2 : ℕ) ≤ (([0, 5] : List ℤ).dropWhile (fun t => t ≤ (10 : ℤ) - 1000)).length ∧
    (cancelOrderGate false ⟨⟨5, 1000, []⟩, ⟨2, 1000, [0, 5]⟩⟩ 10).1 =
      GateOutcome.rejected syntheticCancelReject ∧
    cancelOrderGate true ⟨⟨5, 1000, []⟩, ⟨2, 1000, [0, 5]⟩⟩ 10 =
      (GateOutcome.proceed, ⟨⟨5, 1000, []⟩, ⟨2, 1000, [0, 5]⟩⟩) := by
  have h := rate_limit_gating ⟨⟨5, 1000, []⟩, ⟨2, 1000, [0, 5]⟩⟩ 10
  exact ⟨by decide, (h.2.1 (by decide)).1, h.2.2.2⟩

/-! ## Execution state machine (`src/execution/engine.py`, `src/models.py`) -/

/-- Execution state (`src/models.py`, `ExecutionState`). -/
inductive ExecState
  | IDLE
  | PLACING
  | WAITING
  | CANCELING
  | COOLDOWN
deriving DecidableEq, Repr

/-- Execution mode (`src/models.py`, `ExecutionMode`). -/
inductive ExecMode
  | MAKER_ONLY
  | AGGRESSIVE_LIMIT
deriving DecidableEq, Repr

/-- `SideExecutionState` (`src/models.py`), with the dataclass defaults.
The fields `last_completed_fee`, `last_completed_fee_asset`, the fill-rate
queues and `fill_rate_maker_timeouts_override` are modelled from the spec
(§3, per-side execution state): `src/models.py` omits them although
`src/execution/engine.py` reads and assigns them, so the shipped dataclass is
a stale copy of the data model the engine and the spec agree on. -/
structure EngState where
  symbol : String
  positionSide : PSide
  state : ExecState := ExecState.IDLE
  mode : ExecMode := ExecMode.MAKER_ONLY
  currentOrderId : Option String := none
  currentOrderPlacedMs : ℤ := 0
  currentOrderMode : Option ExecMode := none
  currentOrderReason : Option String := none
  currentOrderIsRisk : Bool := false
  currentOrderFilledQty : ℚ := 0
  lastCompletedOrderId : Option String := none
  lastCompletedMs : ℤ := 0
  pendingFillLog : Bool := false
  lastCompletedFilledQty : ℚ := 0
  lastCompletedAvgPrice : ℚ := 0
  lastCompletedMode : Option ExecMode := none
  lastCompletedReason : Option String := none
  lastCompletedRealizedPnl : Option ℚ := none
  lastCompletedFee : Option ℚ := none
  lastCompletedFeeAsset : Option String := none
  riskActive : Bool := false
  ttlMsOverride : Option ℤ := none
  makerTimeoutsToEscalateOverride : Option ℤ := none
  fillRateMakerTimeoutsOverride : Option ℤ := none
  makerTimeoutCount : ℤ := 0
  aggrTimeoutCount : ℤ := 0
  aggrFillCount : ℤ := 0
  recentMakerSubmits : List ℤ := []
  recentMakerFills : List ℤ := []
  fillRate : Option ℚ := none
  fillRateBucket : Option String := none
deriving DecidableEq, Repr

/-- `OrderUpdate` (`src/models.py`). -/
structure OrderUpdateM where
  symbol : String
  orderId : String
  clientOrderId : String
  side : OSide
  positionSide : PSide
  status : OStatus
  filledQty : ℚ
  avgPrice : ℚ
  timestampMs : ℤ
  isMaker : Option Bool := none
  realizedPnl : Option ℚ := none
  fee : Option ℚ := none
  feeAsset : Option String := none
deriving DecidableEq, Repr

/-- Observable engine effects modelled for the state-machine claims: the fill
log (`log_order_fill`), the `on_fill` callback, and a cancel request sent to
the exchange.  Pure log lines without behavioural content are not modelled. -/
inductive EngEvent
  | fillLog (orderId : String) (filledQty avgPrice : ℚ)
  | onFill
  | cancelRequest (orderId : String)
deriving DecidableEq, Repr

/-- `ExecutionEngine._set_mode`: switch the mode and reset all three rotation
counters; a no-op when the mode is unchanged. -/
def setMode (st : EngState) (newMode : ExecMode) : EngState :=
  if st.mode = newMode then st
  else { st with
    mode := newMode, makerTimeoutCount := 0, aggrTimeoutCount := 0,
    aggrFillCount := 0 }

/-- `ExecutionEngine._update_fill_rate`: push submit/fill timestamps, trim
both queues to the sliding window, recompute `fill_rate`, its bucket and the
resulting escalate-threshold override; a no-op when feedback is disabled. -/
def updateFillRate (cfg : EngineCfg) (st : EngState) (currentMs : ℤ)
    (isSubmit isFill : Bool) : EngState :=
  if !cfg.fillRateFeedbackEnabled then st
  else
    let submits0 := if isSubmit then st.recentMakerSubmits ++ [currentMs]
      else st.recentMakerSubmits
    let fills0 := if isFill then st.recentMakerFills ++ [currentMs]
      else st.recentMakerFills
    let cutoff := currentMs - cfg.fillRateWindowMs
    let submits := submits0.dropWhile (fun t => t < cutoff)
    let fills := fills0.dropWhile (fun t => t < cutoff)
    if submits.length = 0 then
      { st with
        recentMakerSubmits := submits, recentMakerFills := fills,
        fillRate := none, fillRateBucket := none,
        fillRateMakerTimeoutsOverride := none }
    else
      let fr : ℚ := (fills.length : ℚ) / (submits.length : ℚ)
      let bucket := if fr < cfg.fillRateLowThreshold then "low"
        else if cfg.fillRateHighThreshold < fr then "high" else "mid"
      let ov : Option ℤ :=
        if fr < cfg.fillRateLowThreshold then
          some cfg.fillRateLowMakerTimeoutsToEscalate
        else if cfg.fillRateHighThreshold < fr then
          cfg.fillRateHighMakerTimeoutsToEscalate
        else none
      { st with
        recentMakerSubmits := submits, recentMakerFills := fills,
        fillRate := some fr, fillRateBucket := some bucket,
        fillRateMakerTimeoutsOverride := ov }

/-- `ExecutionEngine._flush_pending_fill_if_expired`: once the WS grace window
for a completed order has expired, emit the cached fill log and the `on_fill`
callback (enriched by the REST trade-meta lookup, which only affects the
logged role/PnL values) and clear the pending flag. -/
def flushPendingFill (cfg : EngineCfg) (st : EngState) (currentMs : ℤ) :
    EngState × List EngEvent :=
  if !st.pendingFillLog then (st, [])
  else if currentMs - st.lastCompletedMs ≤ cfg.wsFillGraceMs then (st, [])
  else
    let evs := match st.lastCompletedOrderId with
      | some oid =>
        [EngEvent.fillLog oid st.lastCompletedFilledQty st.lastCompletedAvgPrice,
         EngEvent.onFill]
      | none => []
    ({ st with
        pendingFillLog := false, lastCompletedMs := currentMs,
        lastCompletedMode := none, lastCompletedReason := none,
        lastCompletedRealizedPnl := none, lastCompletedFee := none,
        lastCompletedFeeAsset := none }, evs)

/-- `ExecutionEngine._handle_filled` (WS-update variant): emit the fill log
and `on_fill` when requested, feed the fill-rate estimator for non-risk maker
orders, update the rotation counters (deescalating on reaching
`aggr_fills_to_deescalate`), and recycle the key to IDLE with the
current-order fields cleared. -/
def handleFilled (cfg : EngineCfg) (st : EngState) (u : OrderUpdateM)
    (currentMs : ℤ) (emitFillLog emitOnFill : Bool) : EngState × List EngEvent :=
  let executedMode := st.currentOrderMode.getD st.mode
  let evs := (if emitFillLog then [EngEvent.fillLog u.orderId u.filledQty u.avgPrice]
    else []) ++ (if emitOnFill then [EngEvent.onFill] else [])
  let st1 := if !st.currentOrderIsRisk && decide (executedMode = ExecMode.MAKER_ONLY) then
      updateFillRate cfg st currentMs false true
    else st
  let st2 := match executedMode with
    | ExecMode.MAKER_ONLY => { st1 with makerTimeoutCount := 0 }
    | ExecMode.AGGRESSIVE_LIMIT =>
      let s := { st1 with aggrTimeoutCount := 0, aggrFillCount := st1.aggrFillCount + 1 }
      if 0 < cfg.aggrFillsToDeescalate ∧ cfg.aggrFillsToDeescalate ≤ s.aggrFillCount then
        setMode s ExecMode.MAKER_ONLY
      else s
  ({ st2 with
      state := ExecState.IDLE, currentOrderId := none,
      currentOrderPlacedMs := 0, currentOrderMode := none,
      currentOrderReason := none, currentOrderIsRisk := false,
      currentOrderFilledQty := 0 }, evs)

/-- `ExecutionEngine._should_accept_late_fill`. -/
def shouldAcceptLateFill (cfg : EngineCfg) (st : EngState) (u : OrderUpdateM)
    (currentMs : ℤ) : Bool :=
  if !st.pendingFillLog || st.lastCompletedOrderId.isNone then false
  else if st.lastCompletedOrderId ≠ some u.orderId then false
  else if cfg.wsFillGraceMs < currentMs - st.lastCompletedMs then false
  else decide (u.status = OStatus.FILLED) && decide (0 < u.filledQty)

/-- The timeout-counter update of `ExecutionEngine.check_timeout`: a timeout
with some partial fill resets the active mode's counter, otherwise it is
incremented. -/
def bumpTimeoutCounters (st : EngState) (orderMode : ExecMode) (hadFill : Bool) :
    EngState :=
  match orderMode with
  | ExecMode.AGGRESSIVE_LIMIT =>
    if hadFill then { st with aggrTimeoutCount := 0 }
    else { st with aggrTimeoutCount := st.aggrTimeoutCount + 1 }
  | ExecMode.MAKER_ONLY =>
    if hadFill then { st with makerTimeoutCount := 0 }
    else { st with makerTimeoutCount := st.makerTimeoutCount + 1 }

/-- The mode rotation performed by `ExecutionEngine.check_timeout` after a
timeout: maker escalation under the resolved threshold (risk override, then
fill-rate override, then the static config), aggressive deescalation on the
timeout threshold, or on any partial fill. -/
def rotateModeOnTimeout (cfg : EngineCfg) (st : EngState) (orderMode : ExecMode)
    (hadFill : Bool) : EngState :=
  match orderMode with
  | ExecMode.MAKER_ONLY =>
    let makerEscalate := match st.makerTimeoutsToEscalateOverride with
      | some v => v
      | none => match st.fillRateMakerTimeoutsOverride with
        | some v => v
        | none => cfg.makerTimeoutsToEscalate
    if 0 < makerEscalate ∧ makerEscalate ≤ st.makerTimeoutCount then
      setMode st ExecMode.AGGRESSIVE_LIMIT
    else st
  | ExecMode.AGGRESSIVE_LIMIT =>
    if 0 < cfg.aggrTimeoutsToDeescalate ∧
        cfg.aggrTimeoutsToDeescalate ≤ st.aggrTimeoutCount then
      setMode st ExecMode.MAKER_ONLY
    else if hadFill = true ∧ st.mode ≠ ExecMode.MAKER_ONLY then
      setMode st ExecMode.MAKER_ONLY
    else st

/-- `ExecutionEngine.check_timeout`: flush/clean the late-fill cache, and on a
WAITING order whose TTL has elapsed (inclusive comparison) bump the timeout
counters, rotate the mode, issue the cancel request and move to COOLDOWN
while retaining `current_order_id` so a late fill can still be matched. -/
def checkTimeout (cfg : EngineCfg) (st0 : EngState) (currentMs : ℤ) :
    Bool × EngState × List EngEvent :=
  let fl := flushPendingFill cfg st0 currentMs
  let st := fl.1
  let evs0 := fl.2
  let st := if !st.pendingFillLog ∧ st.lastCompletedOrderId ≠ none ∧
      cfg.wsFillGraceMs < currentMs - st.lastCompletedMs then
      { st with
        lastCompletedOrderId := none, lastCompletedMs := 0,
        lastCompletedFilledQty := 0, lastCompletedAvgPrice := 0,
        lastCompletedRealizedPnl := none, lastCompletedFee := none,
        lastCompletedFeeAsset := none }
    else st
  if st.state ≠ ExecState.WAITING then (false, st, evs0)
  else
    let orderMode := st.currentOrderMode.getD st.mode
    let ttlMs := st.ttlMsOverride.getD cfg.orderTtlMs
    let elapsed := currentMs - st.currentOrderPlacedMs
    if elapsed < ttlMs then (false, st, evs0)
    else
      let hadFill := decide (0 < st.currentOrderFilledQty)
      let st := { st with state := ExecState.CANCELING }
      let st := bumpTimeoutCounters st orderMode hadFill
      let st := rotateModeOnTimeout cfg st orderMode hadFill
      match st.currentOrderId with
      | some oid =>
        (true,
          { st with state := ExecState.COOLDOWN, currentOrderPlacedMs := currentMs },
          evs0 ++ [EngEvent.cancelRequest oid])
      | none => (true, st, evs0)

/-- `ExecutionEngine._handle_canceled`. -/
def handleCanceled (st : EngState) (currentMs : ℤ) : EngState :=
  { st with
    state := ExecState.COOLDOWN, currentOrderId := none,
    currentOrderPlacedMs := currentMs, currentOrderMode := none,
    currentOrderReason := none, currentOrderIsRisk := false,
    currentOrderFilledQty := 0 }

/-- `ExecutionEngine._handle_rejected`. -/
def handleRejected (st : EngState) : EngState :=
  { st with
    state := ExecState.IDLE, currentOrderId := none,
    currentOrderPlacedMs := 0, currentOrderMode := none,
    currentOrderReason := none, currentOrderIsRisk := false,
    currentOrderFilledQty := 0 }

/-- `ExecutionEngine._handle_expired`. -/
def handleExpired (st : EngState) (currentMs : ℤ) : EngState :=
  { st with
    state := ExecState.COOLDOWN, currentOrderId := none,
    currentOrderPlacedMs := currentMs, currentOrderMode := none,
    currentOrderReason := none, currentOrderIsRisk := false,
    currentOrderFilledQty := 0 }

/-- `ExecutionEngine.on_order_update`: flush the pending-fill cache, match the
update against the current order (accepting a late fill for a recycled key
within the grace window), and dispatch on the order status. -/
def onOrderUpdate (cfg : EngineCfg) (st0 : EngState) (u : OrderUpdateM)
    (currentMs : ℤ) : EngState × List EngEvent :=
  let fl := flushPendingFill cfg st0 currentMs
  let st := fl.1
  let evs0 := fl.2
  if st.currentOrderId ≠ some u.orderId then
    if shouldAcceptLateFill cfg st u currentMs then
      ({ st with
          pendingFillLog := false, lastCompletedOrderId := none,
          lastCompletedMs := 0, lastCompletedFilledQty := 0,
          lastCompletedAvgPrice := 0, lastCompletedFee := none,
          lastCompletedFeeAsset := none, lastCompletedMode := none,
          lastCompletedReason := none, lastCompletedRealizedPnl := none },
        evs0 ++ [EngEvent.fillLog u.orderId u.filledQty u.avgPrice, EngEvent.onFill])
    else (st, evs0)
  else
    match u.status with
    | OStatus.FILLED =>
      let r := handleFilled cfg st u currentMs true true
      (r.1, evs0 ++ r.2)
    | OStatus.CANCELED => (handleCanceled st currentMs, evs0)
    | OStatus.REJECTED => (handleRejected st, evs0)
    | OStatus.EXPIRED => (handleExpired st currentMs, evs0)
    | OStatus.PARTIALLY_FILLED =>
      let evs := [EngEvent.fillLog u.orderId u.filledQty u.avgPrice]
      let st := { st with currentOrderFilledQty := u.filledQty }
      let orderMode := st.currentOrderMode.getD st.mode
      let st := if 0 < u.filledQty then
          match orderMode with
          | ExecMode.MAKER_ONLY => { st with makerTimeoutCount := 0 }
          | ExecMode.AGGRESSIVE_LIMIT =>
            let s := { st with aggrTimeoutCount := 0 }
            if s.mode ≠ ExecMode.MAKER_ONLY then setMode s ExecMode.MAKER_ONLY else s
        else st
      (st, evs0 ++ evs)
    | OStatus.NEW => (st, evs0)

lemma setMode_preserve (st : EngState) (m : ExecMode) :
    (setMode st m).currentOrderId = st.currentOrderId ∧
    (setMode st m).pendingFillLog = st.pendingFillLog := by
  unfold setMode
  split_ifs <;> exact ⟨rfl, rfl⟩

lemma bumpTimeoutCounters_preserve (st : EngState) (om : ExecMode) (hf : Bool) :
    (bumpTimeoutCounters st om hf).currentOrderId = st.currentOrderId ∧
    (bumpTimeoutCounters st om hf).pendingFillLog = st.pendingFillLog := by
  cases om <;> cases hf <;> simp [bumpTimeoutCounters]

lemma rotateModeOnTimeout_preserve (cfg : EngineCfg) (st : EngState)
    (om : ExecMode) (hf : Bool) :
    (rotateModeOnTimeout cfg st om hf).currentOrderId = st.currentOrderId ∧
    (rotateModeOnTimeout cfg st om hf).pendingFillLog = st.pendingFillLog := by
  cases om <;> simp only [rotateModeOnTimeout] <;> split_ifs <;>
    first
      | exact ⟨rfl, rfl⟩
      | exact ⟨(setMode_preserve _ _).1, (setMode_preserve _ _).2⟩

/-- Claim C10: after `check_timeout` fires on a WAITING order (inclusive TTL
comparison) it issues the cancel request and moves the key to COOLDOWN while
retaining `current_order_id`; a FILLED `OrderUpdate` for the same order id
arriving during COOLDOWN is still processed as a full fill — the fill log and
the `on_fill` callback are emitted exactly once and the key returns to IDLE
with all current-order fields cleared. -/
theorem checkTimeout_cooldown_then_fill (cfg : EngineCfg) (st : EngState)
    (oid : String) (u : OrderUpdateM) (ms1 ms2 : ℤ)
    (hw : st.state = ExecState.WAITING)
    (hoid : st.currentOrderId = some oid)
    (hpend : st.pendingFillLog = false)
    (hlast : st.lastCompletedOrderId = none)
    (httl : st.ttlMsOverride.getD cfg.orderTtlMs ≤ ms1 - st.currentOrderPlacedMs)
    (huid : u.orderId = oid)
    (hust : u.status = OStatus.FILLED) :
    (checkTimeout cfg st ms1).1 = true ∧
    (checkTimeout cfg st ms1).2.2 = [EngEvent.cancelRequest oid] ∧
    (checkTimeout cfg st ms1).2.1.state = ExecState.COOLDOWN ∧
    (checkTimeout cfg st ms1).2.1.currentOrderId = some oid ∧
    (onOrderUpdate cfg (checkTimeout cfg st ms1).2.1 u ms2).2 =
      [EngEvent.fillLog oid u.filledQty u.avgPrice, EngEvent.onFill] ∧
    (onOrderUpdate cfg (checkTimeout cfg st ms1).2.1 u ms2).1.state = ExecState.IDLE ∧
    (onOrderUpdate cfg (checkTimeout cfg st ms1).2.1 u ms2).1.currentOrderId = none ∧
    (onOrderUpdate cfg (checkTimeout cfg st ms1).2.1 u ms2).1.currentOrderMode = none ∧
    (onOrderUpdate cfg (checkTimeout cfg st ms1).2.1 u ms2).1.currentOrderReason = none ∧
    (onOrderUpdate cfg (checkTimeout cfg st ms1).2.1 u ms2).1.currentOrderIsRisk = false ∧
    (onOrderUpdate cfg (checkTimeout cfg st ms1).2.1 u ms2).1.currentOrderFilledQty = 0 := by
  have hflush : flushPendingFill cfg st ms1 = (st, []) := by
    simp [flushPendingFill, hpend]
  have hnotlt : ¬ (ms1 - st.currentOrderPlacedMs < st.ttlMsOverride.getD cfg.orderTtlMs) :=
    not_lt.mpr httl
  have hmid : ∀ (s : EngState) (om : ExecMode) (hf : Bool),
      s.currentOrderId = some oid →
      (rotateModeOnTimeout cfg (bumpTimeoutCounters s om hf) om hf).currentOrderId =
        some oid := by
    intro s om hf hs
    rw [(rotateModeOnTimeout_preserve cfg _ om hf).1,
      (bumpTimeoutCounters_preserve _ om hf).1]
    exact hs
  have hmidp : ∀ (s : EngState) (om : ExecMode) (hf : Bool),
      s.pendingFillLog = false →
      (rotateModeOnTimeout cfg (bumpTimeoutCounters s om hf) om hf).pendingFillLog =
        false := by
    intro s om hf hs
    rw [(rotateModeOnTimeout_preserve cfg _ om hf).2,
      (bumpTimeoutCounters_preserve _ om hf).2]
    exact hs
  have hct : checkTimeout cfg st ms1 =
      (true,
        { rotateModeOnTimeout cfg
            (bumpTimeoutCounters { st with state := ExecState.CANCELING }
              (st.currentOrderMode.getD st.mode) (decide (0 < st.currentOrderFilledQty)))
            (st.currentOrderMode.getD st.mode) (decide (0 < st.currentOrderFilledQty)) with
          state := ExecState.COOLDOWN, currentOrderPlacedMs := ms1 },
        [EngEvent.cancelRequest oid]) := by
    simp only [checkTimeout, hflush, hpend, hlast, hw, hnotlt]
    simp [hmid _ _ _ hoid]
    rw [if_pos hw, if_neg hnotlt]
    simp [hpend, hlast, hoid, hmid, hmidp]
  rw [hct]
  have hp1 : ({ rotateModeOnTimeout cfg
      (bumpTimeoutCounters { st with state := ExecState.CANCELING }
        (st.currentOrderMode.getD st.mode) (decide (0 < st.currentOrderFilledQty)))
      (st.currentOrderMode.getD st.mode) (decide (0 < st.currentOrderFilledQty)) with
    state := ExecState.COOLDOWN, currentOrderPlacedMs := ms1 } : EngState).pendingFillLog =
      false := hmidp _ _ _ hpend
  have hi1 : ({ rotateModeOnTimeout cfg
      (bumpTimeoutCounters { st with state := ExecState.CANCELING }
        (st.currentOrderMode.getD st.mode) (decide (0 < st.currentOrderFilledQty)))
      (st.currentOrderMode.getD st.mode) (decide (0 < st.currentOrderFilledQty)) with
    state := ExecState.COOLDOWN, currentOrderPlacedMs := ms1 } : EngState).currentOrderId =
      some oid := hmid _ _ _ hoid
  refine ⟨rfl, rfl, rfl, hi1, ?_⟩
  have hflush2 : ∀ s : EngState, s.pendingFillLog = false →
      flushPendingFill cfg s ms2 = (s, []) := by
    intro s hs
    simp [flushPendingFill, hs]
  simp only [onOrderUpdate, hflush2 _ hp1, hi1, huid, hust]
  simp [handleFilled, huid]

/-- A WAITING maker order placed at t=1000 (witness input for claim C10). -/
def timedOutState : EngState :=
  { symbol := "BTC/USDT:USDT", positionSide := PSide.LONG,
    state := ExecState.WAITING, currentOrderId := some "order_123",
    currentOrderPlacedMs := 1000 }

/-- The FILLED WS update for the same order arriving during COOLDOWN
(witness input for claim C10). -/
def lateFilledUpdate : OrderUpdateM :=
  { symbol := "BTC/USDT:USDT", orderId := "order_123",
    clientOrderId := "client_123", side := OSide.SELL,
    positionSide := PSide.LONG, status := OStatus.FILLED,
    filledQty := 1/1000, avgPrice := 50000, timestampMs := 2100 }

/-- Witness for `checkTimeout_cooldown_then_fill`: default config (TTL
800 ms), timeout check at t=2000 (elapsed 1000 ≥ 800), FILLED update at
t=2100. -/
theorem checkTimeout_cooldown_then_fill_witness :
    (checkTimeout {} timedOutState 2000).1 = true ∧
    (checkTimeout {} timedOutState 2000).2.2 = [EngEvent.cancelRequest "order_123"] ∧
    (checkTimeout {} timedOutState 2000).2.1.state = ExecState.COOLDOWN ∧
    (checkTimeout {} timedOutState 2000).2.1.currentOrderId = some "order_123" ∧
    (onOrderUpdate {} (checkTimeout {} timedOutState 2000).2.1 lateFilledUpdate 2100).2 =
      [EngEvent.fillLog "order_123" (1/1000) 50000, EngEvent.onFill] ∧
    (onOrderUpdate {} (checkTimeout {} timedOutState 2000).2.1 lateFilledUpdate 2100).1.state =
      ExecState.IDLE ∧
    (onOrderUpdate {} (checkTimeout {} timedOutState 2000).2.1 lateFilledUpdate 2100).1.currentOrderId =
      none ∧
    (onOrderUpdate {} (checkTimeout {} timedOutState 2000).2.1 lateFilledUpdate 2100).1.currentOrderMode =
      none ∧
    (onOrderUpdate {} (checkTimeout {} timedOutState 2000).2.1 lateFilledUpdate 2100).1.currentOrderReason =
      none ∧
    (onOrderUpdate {} (checkTimeout {} timedOutState 2000).2.1 lateFilledUpdate 2100).1.currentOrderIsRisk =
      false ∧
    (onOrderUpdate {} (checkTimeout {} timedOutState 2000).2.1 lateFilledUpdate 2100).1.currentOrderFilledQty =
      0 :=
  checkTimeout_cooldown_then_fill {} timedOutState "order_123" lateFilledUpdate 2000 2100
    rfl rfl rfl rfl (by decide) rfl rfl

/-! ## Application-layer post-only retry (`src/main.py`) -/

/-- Modelled from the spec: the adapter classifies a post-only rejection as
error code `-5022` or the literal "post only" in the error message
(`src/exchange/adapter.py` builds such results; the orchestrator-side check
is part of the missing `_maybe_retry_post_only_reject`). -/
def isPostOnlyReject (r : OrderResultM) : Bool :=
  !r.success &&
    (decide (r.errorCode = some "-5022") ||
      decide (List.IsInfix "post only".data ((r.errorMessage.getD "").data.map Char.toLower)))

/-- Modelled from the spec: `Application._maybe_retry_post_only_reject` is
exercised by `tests/test_post_only_retry.py` but absent from `src/main.py`.
Spec §4.9 / §4.7: if `_place_order` returns a post-only rejection in
MAKER_ONLY, the orchestrator sets the key's mode to AGGRESSIVE_LIMIT,
recomputes the aggressive price and `TIF = GTC` for the same intent, and
places once — a one-shot retry, not a loop.  `exchangeResult` is the
exchange's response to that single retry placement; the middle component of
the returned value is the one optional retry placement performed. -/
def maybeRetryPostOnlyReject (st : EngState) (intent : OrderIntentM)
    (result : OrderResultM) (bestBid bestAsk tickSize : ℚ)
    (exchangeResult : OrderResultM) :
    EngState × Option (OrderIntentM × OrderResultM) × Bool :=
  if isPostOnlyReject result && decide (st.mode = ExecMode.MAKER_ONLY) then
    let st1 := setMode st ExecMode.AGGRESSIVE_LIMIT
    let price := buildAggressiveLimitPrice intent.positionSide bestBid bestAsk tickSize
    let retryIntent := { intent with price := some price, timeInForce := TIF.GTC }
    (st1, some (retryIntent, exchangeResult), true)
  else (st, none, false)

/-- Claim C5: a post-only rejection of a MAKER_ONLY placement triggers
exactly one retry — the key's mode is set to AGGRESSIVE_LIMIT, the price is
recomputed with the aggressive-limit rule, the time-in-force becomes GTC on
the otherwise identical intent, and exactly one further placement happens;
in every other situation (and hence for the retried placement itself, whose
mode is no longer MAKER_ONLY) no retry placement is made. -/
theorem post_only_retry_once (st : EngState) (intent : OrderIntentM)
    (result : OrderResultM) (bestBid bestAsk tickSize : ℚ)
    (exchangeResult : OrderResultM)
    (hmode : st.mode = ExecMode.MAKER_ONLY)
    (hrej : isPostOnlyReject result = true) :
    maybeRetryPostOnlyReject st intent result bestBid bestAsk tickSize exchangeResult =
      (setMode st ExecMode.AGGRESSIVE_LIMIT,
        some ({ intent with
          price := some (buildAggressiveLimitPrice intent.positionSide bestBid bestAsk tickSize),
          timeInForce := TIF.GTC }, exchangeResult), true) ∧
    (setMode st ExecMode.AGGRESSIVE_LIMIT).mode = ExecMode.AGGRESSIVE_LIMIT ∧
    (∀ (st2 : EngState) (r2 : OrderResultM),
      ¬ (isPostOnlyReject r2 = true ∧ st2.mode = ExecMode.MAKER_ONLY) →
      maybeRetryPostOnlyReject st2 intent r2 bestBid bestAsk tickSize exchangeResult =
        (st2, none, false)) := by
  refine ⟨?_, ?_, ?_⟩
  · simp [maybeRetryPostOnlyReject, hrej, hmode]
  · simp [setMode, hmode]
  · intro st2 r2 hno
    have hand : (isPostOnlyReject r2 && decide (st2.mode = ExecMode.MAKER_ONLY)) = false := by
      by_cases h : isPostOnlyReject r2 = true
      · have h2 : ¬ st2.mode = ExecMode.MAKER_ONLY := fun hm => hno ⟨h, hm⟩
        simp [h, h2]
      · have hf : isPostOnlyReject r2 = false := by
          cases hb : isPostOnlyReject r2
          · rfl
          · exact absurd hb h
        simp [hf]
    simp [maybeRetryPostOnlyReject, hand]

/-- The GTX intent of the retry witness, mirroring
`tests/test_post_only_retry.py`. -/
def retryIntentInput : OrderIntentM :=
  { symbol := "BTC/USDT:USDT", side := OSide.SELL, positionSide := PSide.LONG,
    qty := 1/100, price := some 100, timeInForce := TIF.GTX, reduceOnly := true }

/-- Witness for `post_only_retry_once`: a `-5022` rejection of a GTX LONG
close on a 99.0/100.0 book with tick 0.1 is retried once at the aggressive
price 99.0 with GTC, and the key's mode becomes AGGRESSIVE_LIMIT. -/
theorem post_only_retry_once_witness :
    maybeRetryPostOnlyReject
        { symbol := "BTC/USDT:USDT", positionSide := PSide.LONG, state := ExecState.PLACING }
        retryIntentInput
        { success := false, errorCode := some "-5022", errorMessage := some "post only rejected" }
        99 100 (1/10)
        { success := true, orderId := some "abc", status := some OStatus.NEW } =
      ({ symbol := "BTC/USDT:USDT", positionSide := PSide.LONG, state := ExecState.PLACING,
          mode := ExecMode.AGGRESSIVE_LIMIT },
        some ({ retryIntentInput with price := some 99, timeInForce := TIF.GTC },
          { success := true, orderId := some "abc", status := some OStatus.NEW }), true) ∧
    buildAggressiveLimitPrice PSide.LONG 99 100 (1/10) = 99 := by
  have hag : buildAggressiveLimitPrice PSide.LONG 99 100 (1/10) = 99 := by
    have h99 : roundToTick (99 : ℚ) (1/10) = (990 : ℚ) * (1/10) :=
      roundToTick_eval 990 (by norm_num) (by norm_num) (by norm_num) (by norm_num)
    rw [buildAggressiveLimitPrice, if_neg (by norm_num : ¬ ((1:ℚ)/10 ≤ 0))]
    rw [h99]
    norm_num
  have h := post_only_retry_once
    { symbol := "BTC/USDT:USDT", positionSide := PSide.LONG, state := ExecState.PLACING }
    retryIntentInput
    { success := false, errorCode := some "-5022", errorMessage := some "post only rejected" }
    99 100 (1/10)
    { success := true, orderId := some "abc", status := some OStatus.NEW }
    rfl (by rfl)
  have hag' : buildAggressiveLimitPrice retryIntentInput.positionSide 99 100 (1/10) = 99 := hag
  refine ⟨?_, hag⟩
  rw [h.1, hag']
  rfl

/-! ## Client-order-id namespace and shutdown cleanup
(`src/main.py`, `src/risk/protective_stop.py`, `src/utils/helpers.py`) -/

/-- `String.take` over the character list (python slicing `cid[:36]`). -/
def strTake (s : String) (n : ℕ) : String := String.mk (s.data.take n)

/-- Python `str.startswith`, as list-prefix testing over the characters. -/
def strStarts (s p : String) : Bool := p.data.isPrefixOf s.data

/-- `symbol_to_ws_stream` (`src/utils/helpers.py`): the part before `:`,
with `/` removed, lower-cased (`BTC/USDT:USDT → btcusdt`). -/
def symbolToWsStream (symbol : String) : String :=
  String.mk (((symbol.data.takeWhile (fun c => c ≠ ':')).filter
    (fun c => c ≠ '/')).map Char.toLower)

/-- `CLIENT_ORDER_PREFIX` (`src/main.py`). -/
def clientOrderBrand : String := "vq"

/-- `PROTECTIVE_STOP_PREFIX` (`src/main.py`): the brand plus `-ps-`. -/
def protectiveStopCidBase : String := clientOrderBrand ++ "-ps-"

/-- `Application._init_run_identity` (`src/main.py`): the per-run namespace
`vq-{run_id}-`; `none` models the `ValueError` on an over-long value. -/
def buildRunCidBase (runId : String) : Option String :=
  let p := clientOrderBrand ++ "-" ++ runId ++ "-"
  if 36 ≤ p.length then none else some p

/-- `Application._next_client_order_id` (`src/main.py`): the run namespace
plus as many random hex characters as fit into 36; `none` models the raise
when no room is left. -/
def nextClientOrderId (base rand : String) : Option String :=
  if 36 ≤ base.length then none
  else some (base ++ strTake rand (36 - base.length))

/-- `ProtectiveStopManager._build_client_order_id_prefix`
(`src/risk/protective_stop.py`): base plus ws symbol plus side code, with the
hash fallback for over-long symbols (the Python runtime hash value enters as
a parameter). -/
def buildPsCidBase (base symbol : String) (side : PSide) (hashHex : String) : String :=
  let ws := symbolToWsStream symbol
  let sideCode := match side with
    | PSide.LONG => "L"
    | PSide.SHORT => "S"
  let p := base ++ ws ++ "-" ++ sideCode
  if 30 ≤ p.length then base ++ hashHex ++ "-" ++ sideCode else p

/-- `ProtectiveStopManager.build_client_order_id`: the stable per-side base
plus a five-digit timestamp suffix, truncated to 36 characters. -/
def buildClientOrderId (base symbol : String) (side : PSide) (ts : ℕ)
    (hashHex : String) : String :=
  let p := buildPsCidBase base symbol side hashHex
  let cid := p ++ "-" ++ toString (ts % 100000)
  if 36 < cid.length then strTake cid 36 else cid

/-- An open order as consumed by `_cancel_own_orders` (`src/main.py`):
`clientOrderId` from the top level or from `info`, plus the exchange id. -/
structure OpenOrderRaw where
  clientOrderId : Option String
  infoClientOrderId : Option String
  id : Option String
deriving DecidableEq, Repr

/-- The `clientOrderId` resolution of `_cancel_own_orders`: the top-level
field unless it is falsy (absent or empty), else the `info` copy. -/
def effectiveCid (o : OpenOrderRaw) : Option String :=
  match o.clientOrderId with
  | some c => if c = "" then o.infoClientOrderId else some c
  | none => o.infoClientOrderId

/-- The per-order decision of `_cancel_own_orders`: cancel the order's id iff
a non-empty client order id resolving under `effectiveCid` starts with the
run namespace and the exchange id is non-falsy. -/
def cleanupDecision (p : String) (o : OpenOrderRaw) : Option String :=
  match effectiveCid o with
  | none => none
  | some c =>
    if c = "" then none
    else if strStarts c p then
      match o.id with
      | none => none
      | some oid => if oid = "" then none else some oid
    else none

/-- `Application._cancel_own_orders` (`src/main.py`), per symbol: the ids it
cancels, in order. -/
def cleanupCancels (p : String) (orders : List OpenOrderRaw) : List String :=
  orders.filterMap (cleanupDecision p)

lemma cleanupDecision_eq_some (p : String) (o : OpenOrderRaw) (oid : String) :
    cleanupDecision p o = some oid ↔
      (∃ c, effectiveCid o = some c ∧ c ≠ "" ∧ strStarts c p = true) ∧
      o.id = some oid ∧ oid ≠ "" := by
  constructor
  · intro hf
    unfold cleanupDecision at hf
    rcases hec : effectiveCid o with _ | c <;> rw [hec] at hf <;> dsimp only at hf
    · cases hf
    · by_cases hce : c = ""
      · rw [if_pos hce] at hf; cases hf
      · rw [if_neg hce] at hf
        by_cases hsw : strStarts c p = true
        · rw [if_pos hsw] at hf
          rcases hid : o.id with _ | oid2 <;> rw [hid] at hf <;> dsimp only at hf
          · cases hf
          · by_cases hoe : oid2 = ""
            · rw [if_pos hoe] at hf; cases hf
            · rw [if_neg hoe] at hf
              cases hf
              exact ⟨⟨c, rfl, hce, hsw⟩, rfl, hoe⟩
        · rw [if_neg hsw] at hf; cases hf
  · rintro ⟨⟨c, hec, hce, hsw⟩, hid, hoe⟩
    unfold cleanupDecision
    rw [hec]
    dsimp only
    rw [if_neg hce, if_pos hsw, hid]
    dsimp only
    rw [if_neg hoe]

/-- Claim C8 counterexample: protective-stop orders are placed with a client
order id built by `ProtectiveStopManager.build_client_order_id` from the
stable base `vq-ps-` — for `BTC/USDT:USDT` LONG at timestamp suffix 12345 the
id is `vq-ps-btcusdt-L-12345`, which does not begin with `vq-{run_id}-` for
the run id `abcdef0123` (or any other: position 3 holds `p`, never `-`
followed by ten hex characters of a run id).  So not every order placed by
the program is run-prefixed. -/
theorem protectiveStop_cid_not_run_prefixed :
    buildClientOrderId protectiveStopCidBase "BTC/USDT:USDT" PSide.LONG 12345 "0000000" =
      "vq-ps-btcusdt-L-12345" ∧
    buildRunCidBase "abcdef0123" = some "vq-abcdef0123-" ∧
    strStarts "vq-ps-btcusdt-L-12345" "vq-abcdef0123-" = false := by
  refine ⟨by decide, by decide, by decide⟩

/-- Claim C8 (amended): ids generated by the orchestrator's
`_next_client_order_id` begin with the run namespace `vq-{run_id}-` and are
at most 36 characters; protective-stop ids are at most 36 characters but
carry the stable `vq-ps-…` base instead of the run namespace; and shutdown
cleanup cancels exactly those open orders whose resolved client order id is
non-empty and starts with the run namespace and whose exchange id is
non-falsy. -/
theorem client_order_id_namespace (runId rand : String) (hrun : runId.length = 10) :
    (∃ base, buildRunCidBase runId = some base ∧
      ∀ cid, nextClientOrderId base rand = some cid →
        strStarts cid base = true ∧ cid.length ≤ 36) ∧
    (∀ (base symbol : String) (side : PSide) (ts : ℕ) (hashHex : String),
      (buildClientOrderId base symbol side ts hashHex).length ≤ 36 ∨
        36 ≤ (buildClientOrderId base symbol side ts hashHex).length ∧
          buildClientOrderId base symbol side ts hashHex =
            strTake (buildPsCidBase base symbol side hashHex ++ "-" ++
              toString (ts % 100000)) 36) ∧
    (∀ (p : String) (orders : List OpenOrderRaw) (oid : String),
      oid ∈ cleanupCancels p orders ↔
        ∃ o ∈ orders, (∃ c, effectiveCid o = some c ∧ c ≠ "" ∧ strStarts c p = true) ∧
          o.id = some oid ∧ oid ≠ "") := by
  refine ⟨?_, ?_, ?_⟩
  · have hlen : (clientOrderBrand ++ "-" ++ runId ++ "-").length = 14 := by
      simp only [String.length_append, hrun, clientOrderBrand]
      decide
    refine ⟨clientOrderBrand ++ "-" ++ runId ++ "-", ?_, ?_⟩
    · rw [buildRunCidBase]
      rw [if_neg (by rw [hlen]; omega)]
    · intro cid hcid
      rw [nextClientOrderId, if_neg (by rw [hlen]; omega)] at hcid
      cases hcid
      constructor
      · rw [strStarts]
        have : (clientOrderBrand ++ "-" ++ runId ++ "-" ++
            strTake rand (36 - (clientOrderBrand ++ "-" ++ runId ++ "-").length)).data =
            (clientOrderBrand ++ "-" ++ runId ++ "-").data ++
            (strTake rand (36 - (clientOrderBrand ++ "-" ++ runId ++ "-").length)).data := by
          simp [String.data_append]
        rw [this]
        exact List.isPrefixOf_iff_prefix.mpr (List.prefix_append _ _)
      · rw [String.length_append, hlen]
        have h22 : (strTake rand (36 - 14)).length ≤ 22 := by
          show (rand.data.take (36 - 14)).length ≤ 22
          have := List.length_take (36 - 14) rand.data
          omega
        omega
  · intro base symbol side ts hashHex
    rw [buildClientOrderId]
    by_cases h : 36 < (buildPsCidBase base symbol side hashHex ++ "-" ++ toString (ts % 100000)).length
    · rw [if_pos h]
      left
      simp only [strTake, String.length]
      have := List.length_take 36
        (buildPsCidBase base symbol side hashHex ++ "-" ++ toString (ts % 100000)).data
      omega
    · rw [if_neg h]
      left
      omega
  · intro p orders oid
    rw [cleanupCancels]
    rw [List.mem_filterMap]
    constructor
    · rintro ⟨o, ho, hf⟩
      exact ⟨o, ho, (cleanupDecision_eq_some p o oid).mp hf⟩
    · rintro ⟨o, ho, hprops⟩
      exact ⟨o, ho, (cleanupDecision_eq_some p o oid).mpr hprops⟩

/-- Witness for `client_order_id_namespace` at run id `abcdef0123` and a
32-hex random suffix. -/
theorem client_order_id_namespace_witness :
    ("abcdef0123" : String).length = 10 ∧
    buildRunCidBase "abcdef0123" = some "vq-abcdef0123-" ∧
    ∀ cid, nextClientOrderId "vq-abcdef0123-" "0123456789abcdef0123456789abcdef" = some cid →
      strStarts cid "vq-abcdef0123-" = true ∧ cid.length ≤ 36 := by
  have h := client_order_id_namespace "abcdef0123" "0123456789abcdef0123456789abcdef"
    (by decide)
  obtain ⟨⟨base, hbase, hprop⟩, _, _⟩ := h
  have hb : base = "vq-abcdef0123-" := by
    have : buildRunCidBase "abcdef0123" = some "vq-abcdef0123-" := by decide
    rw [this] at hbase
    cases hbase
    rfl
  rw [hb] at hprop
  exact ⟨by decide, by decide, hprop⟩

end VQ
